import Mathlib

/-!
Verification development for the IncentEdge DSIRE ingest-and-diff core
(`src/scraper/dsire_api/tracker.py`, `scheduler.py`, `client.py`).

The SQLite-backed tracker is modelled as a pure store passed explicitly
through each operation.  Machine details abstracted:

* Timestamps (`datetime.now()`, SQLite `CURRENT_TIMESTAMP`) are modelled as a
  single `Nat` value `now` passed to each call; all default-timestamp columns
  written during one call receive that value, matching the one-transaction,
  sub-second granularity of a single Python call.
* The MD5 content hash `md5(json.dumps(data, sort_keys=True, default=str))`
  is modelled as the sorted-by-key association list itself, i.e. as the
  canonical serialization the digest is computed from.  Two payloads get the
  same modelled hash exactly when their canonical JSON dumps coincide
  (an idealization that treats the digest as collision-free).
* JSON values appearing in payloads are modelled by `Value` (strings and
  integers), which covers every payload shape the scraper produces for the
  fields the tracker reads.
* SQLite `AUTOINCREMENT` row ids are modelled by per-table counters.
* `ORDER BY scraped_at DESC LIMIT 1` is modelled by a fold picking a row of
  maximal `scraped_at`; on ties it keeps the earlier row (SQLite leaves tie
  order unspecified; theorems that need a unique latest snapshot assume
  strictly increasing capture times, i.e. an advancing clock).
-/

namespace IncentEdge

/-- A JSON scalar as produced by the scraper payloads: a string or an
integer. -/
inductive Value where
  | str (s : String)
  | num (n : Int)
deriving DecidableEq, Repr

/-- A payload dictionary, as an association list in insertion order
(a Python `dict`). -/
abbrev Payload := List (String × Value)

/-- Dictionary lookup `d.get(k)`: the value at the first matching key. -/
def dataGet (d : Payload) (k : String) : Option Value :=
  match d with
  | [] => none
  | (k', v) :: rest => if k' = k then some v else dataGet rest k

/-- Python truthiness of a value: empty string and zero are falsy. -/
def vTruthy : Value → Bool
  | .str s => s != ""
  | .num n => n != 0

/-- Python `str(...)` applied to a payload value. -/
def pyStr : Value → String
  | .str s => s
  | .num n => toString n

/-- Models `data.get(k, dflt)` followed by storage into a TEXT column. -/
def getFieldD (d : Payload) (k : String) (dflt : String) : String :=
  match dataGet d k with
  | some v => pyStr v
  | none => dflt

/-- Models `str(data.get(field, '')) if data.get(field) else None` from
`IncentiveTracker._record_changes`: the stringified value when truthy,
otherwise the NULL sentinel. -/
def trackedValue (d : Payload) (f : String) : Option String :=
  match dataGet d f with
  | some v => if vTruthy v then some (pyStr v) else none
  | none => none

/-- Code-point lexicographic order on character lists, the order Python uses
to compare strings in `sort_keys=True`. -/
def charsLeb : List Char → List Char → Bool
  | [], _ => true
  | _ :: _, [] => false
  | a :: as, b :: bs =>
      if a.toNat < b.toNat then true
      else if b.toNat < a.toNat then false
      else charsLeb as bs

theorem charsLeb_total : ∀ a b : List Char, charsLeb a b = true ∨ charsLeb b a = true
  | [], _ => Or.inl rfl
  | _ :: _, [] => Or.inr rfl
  | a :: as, b :: bs => by
      rcases Nat.lt_trichotomy a.toNat b.toNat with h | h | h
      · exact Or.inl (by simp [charsLeb, h])
      · have := charsLeb_total as bs
        rcases this with h' | h'
        · exact Or.inl (by simp [charsLeb, h.le.not_lt, h.ge.not_lt, h'])
        · exact Or.inr (by simp [charsLeb, h.le.not_lt, h.ge.not_lt, h'])
      · exact Or.inr (by simp [charsLeb, h])

theorem charsLeb_trans : ∀ a b c : List Char,
    charsLeb a b = true → charsLeb b c = true → charsLeb a c = true
  | [], _, _ => by intro _ _; rfl
  | _ :: _, [], _ => by intro h; exact absurd h (by simp [charsLeb])
  | _ :: _, _ :: _, [] => by intro _ h; exact absurd h (by simp [charsLeb])
  | a :: as, b :: bs, c :: cs => by
      intro hab hbc
      simp only [charsLeb] at hab hbc ⊢
      split_ifs at hab hbc ⊢ <;>
        first
          | rfl
          | (exact charsLeb_trans as bs cs hab hbc)
          | (exact absurd hab Bool.false_ne_true)
          | (exact absurd hbc Bool.false_ne_true)
          | (exfalso; omega)

theorem charsLeb_antisymm : ∀ a b : List Char,
    charsLeb a b = true → charsLeb b a = true → a = b
  | [], [] => by intro _ _; rfl
  | [], _ :: _ => by intro _ h; exact absurd h (by simp [charsLeb])
  | _ :: _, [] => by intro h _; exact absurd h (by simp [charsLeb])
  | a :: as, b :: bs => by
      intro hab hba
      by_cases h₁ : a.toNat < b.toNat
      · have h₂ : ¬ b.toNat < a.toNat := by omega
        simp [charsLeb, h₁, h₂] at hba
      · by_cases h₂ : b.toNat < a.toNat
        · simp [charsLeb, h₁, h₂] at hab
        · have hc : a = b := Char.ext (UInt32.ext (show a.toNat = b.toNat by omega))
          subst hc
          simp [charsLeb] at hab hba
          rw [charsLeb_antisymm as bs hab hba]

/-- String order used by `sort_keys=True` (code-point lexicographic). -/
def strLeb (a b : String) : Bool := charsLeb a.data b.data

/-- Key order on payload entries, used to model `sort_keys=True`. -/
def keyLE (p q : String × Value) : Prop := strLeb p.1 q.1 = true

instance : DecidableRel keyLE := fun p q =>
  inferInstanceAs (Decidable (strLeb p.1 q.1 = true))

instance : IsTotal (String × Value) keyLE :=
  ⟨fun a b => charsLeb_total a.1.data b.1.data⟩

instance : IsTrans (String × Value) keyLE :=
  ⟨fun _ _ _ h h' => charsLeb_trans _ _ _ h h'⟩

/-- Models `IncentiveTracker._compute_hash`: the canonical serialization
`json.dumps(data, sort_keys=True, default=str)` whose MD5 digest the code
stores, represented by the key-sorted association list. -/
def computeHash (d : Payload) : List (String × Value) :=
  d.insertionSort keyLE

/-- Row of the `incentives` table. -/
structure Entity where
  rowId : Nat
  dsire_id : String
  name : String
  state : String
  program_type : String
  first_seen_at : Nat
  last_seen_at : Nat
  last_updated_at : Option Nat
  data_hash : List (String × Value)
  is_active : Bool
deriving DecidableEq, Repr

/-- Row of the `incentive_snapshots` table; `data_json` holds the payload
that `json.dumps(data, default=str)` serialized (insertion order kept). -/
structure Snapshot where
  rowId : Nat
  incentive_id : Nat
  data_json : Payload
  data_hash : List (String × Value)
  scraped_at : Nat
deriving DecidableEq, Repr

/-- Row of the `incentive_changes` table. -/
structure ChangeRow where
  rowId : Nat
  incentive_id : Nat
  field_name : String
  old_value : Option String
  new_value : Option String
  detected_at : Nat
deriving DecidableEq, Repr

/-- Row of the `scan_logs` table. -/
structure ScanLog where
  rowId : Nat
  scan_type : String
  status : String
  total_found : Nat
  new_count : Nat
  updated_count : Nat
  removed_count : Nat
  error_message : Option String
  started_at : Nat
  completed_at : Option Nat
deriving DecidableEq, Repr

/-- The SQLite database of the tracker, with per-table AUTOINCREMENT
counters. -/
structure Store where
  incentives : List Entity
  snapshots : List Snapshot
  changes : List ChangeRow
  scans : List ScanLog
  nextEntityId : Nat
  nextSnapshotId : Nat
  nextChangeId : Nat
  nextScanId : Nat
deriving DecidableEq, Repr

/-- The freshly initialized database (`_init_database` creates empty
tables). -/
def Store.empty : Store := ⟨[], [], [], [], 1, 1, 1, 1⟩

/-- Models `SELECT id, data_hash FROM incentives WHERE dsire_id = ?` plus
`fetchone()`: the first row with the given external id. -/
def findEntity (s : Store) (did : String) : Option Entity :=
  s.incentives.find? (fun e => e.dsire_id == did)

/-- Models `UPDATE incentives SET ... WHERE id = ?`. -/
def updateEntity (s : Store) (eid : Nat) (f : Entity → Entity) : Store :=
  { s with incentives := s.incentives.map (fun e => if e.rowId = eid then f e else e) }

/-- Models `INSERT INTO incentive_snapshots (incentive_id, data_json,
data_hash) VALUES (?, ?, ?)`. -/
def insertSnapshot (s : Store) (eid : Nat) (data : Payload)
    (h : List (String × Value)) (now : Nat) : Store :=
  { s with snapshots := s.snapshots ++ [⟨s.nextSnapshotId, eid, data, h, now⟩],
           nextSnapshotId := s.nextSnapshotId + 1 }

/-- Models `INSERT INTO incentive_changes (incentive_id, field_name,
old_value, new_value) VALUES (?, ?, ?, ?)`. -/
def insertChange (s : Store) (eid : Nat) (f : String) (ov nv : Option String)
    (now : Nat) : Store :=
  { s with changes := s.changes ++ [⟨s.nextChangeId, eid, f, ov, nv, now⟩],
           nextChangeId := s.nextChangeId + 1 }

/-- Models the `INSERT INTO incentives ...` of the new-entity branch of
`record_incentive`. -/
def insertEntityRow (s : Store) (did : String) (data : Payload)
    (h : List (String × Value)) (now : Nat) : Store :=
  { s with
      incentives := s.incentives ++
        [⟨s.nextEntityId, did, getFieldD data "name" "Unknown",
          getFieldD data "state" "", getFieldD data "program_type" "",
          now, now, none, h, true⟩],
      nextEntityId := s.nextEntityId + 1 }

/-- The fixed tracked-field list of `IncentiveTracker._record_changes`. -/
def tracked_fields : List String :=
  ["name", "program_type", "incentive_amount", "start_date",
   "end_date", "description", "eligible_sectors", "technologies",
   "implementing_sector", "contact", "website"]

/-- Body of `_record_changes` over an explicit field list. -/
def recordChangesAux (fields : List String) (eid : Nat)
    (oldData newData : Payload) (now : Nat) (s : Store) : Store :=
  match fields with
  | [] => s
  | f :: rest =>
      let ov := trackedValue oldData f
      let nv := trackedValue newData f
      let s' := if ov ≠ nv then insertChange s eid f ov nv now else s
      recordChangesAux rest eid oldData newData now s'

/-- Models `IncentiveTracker._record_changes`: one change row per tracked
field whose stringified value differs between the two snapshots. -/
def recordChanges (s : Store) (eid : Nat) (oldData newData : Payload)
    (now : Nat) : Store :=
  recordChangesAux tracked_fields eid oldData newData now s

/-- Fold picking a row of maximal `scraped_at` (earlier row kept on tie). -/
def snapMax : Option Snapshot → Snapshot → Option Snapshot
  | none, sn => some sn
  | some a, sn => if a.scraped_at < sn.scraped_at then some sn else some a

/-- Models `SELECT data_json FROM incentive_snapshots WHERE incentive_id = ?
ORDER BY scraped_at DESC LIMIT 1`. -/
def latestSnapshot (s : Store) (eid : Nat) : Option Snapshot :=
  (s.snapshots.filter (fun sn => sn.incentive_id == eid)).foldl snapMax none

/-- Models `IncentiveTracker.record_incentive`: decides new / updated /
unchanged for one observation, returning the updated store and the
`(is_new, is_updated)` pair. -/
def record_incentive (s : Store) (did : String) (data : Payload) (now : Nat) :
    Store × Bool × Bool :=
  let h := computeHash data
  match findEntity s did with
  | none =>
      let eid := s.nextEntityId
      let s1 := insertEntityRow s did data h now
      let s2 := insertSnapshot s1 eid data h now
      (s2, true, false)
  | some e =>
      let s1 := updateEntity s e.rowId
        (fun x => { x with last_seen_at := now, is_active := true })
      if e.data_hash ≠ h then
        let s2 :=
          match latestSnapshot s1 e.rowId with
          | some os => recordChanges s1 e.rowId os.data_json data now
          | none => s1
        let s3 := insertSnapshot s2 e.rowId data h now
        let s4 := updateEntity s3 e.rowId
          (fun x => { x with data_hash := h, last_updated_at := some now })
        (s4, false, true)
      else
        (s1, false, false)

/-- Models `IncentiveTracker.mark_inactive`. -/
def markInactive (s : Store) (ids : List String) : Store :=
  if ids = [] then s
  else
    { s with incentives := s.incentives.map (fun e =>
        if e.dsire_id ∈ ids then { e with is_active := false } else e) }

/-- Models `IncentiveTracker.start_scan`: inserts a running scan row and
returns its id. -/
def startScan (s : Store) (ty : String) (now : Nat) : Store × Nat :=
  ({ s with scans := s.scans ++ [⟨s.nextScanId, ty, "running", 0, 0, 0, 0, none, now, none⟩],
            nextScanId := s.nextScanId + 1 }, s.nextScanId)

/-- Models `IncentiveTracker.end_scan`: updates the scan row by id. -/
def endScan (s : Store) (scanId : Nat) (status : String)
    (total nw upd rem : Nat) (err : Option String) (now : Nat) : Store :=
  { s with scans := s.scans.map (fun r =>
      if r.rowId = scanId then
        { r with status := status, completed_at := some now, total_found := total,
                 new_count := nw, updated_count := upd, removed_count := rem,
                 error_message := err }
      else r) }

/-- Models `str(program.get('id', ''))` from both scan loops. -/
def pid (p : Payload) : String :=
  match dataGet p "id" with
  | some v => pyStr v
  | none => ""

/-- A record is processed only when its stringified id is non-empty
(`if not dsire_id: continue`). -/
def goodId (p : Payload) : Bool := pid p != ""

/-- Store effect of the per-program recording loop: each program with a
non-empty id is fed to `record_incentive`, the rest are skipped. -/
def recordPrograms (now : Nat) (s : Store) (ps : List Payload) : Store :=
  ps.foldl (fun st p => if pid p = "" then st else (record_incentive st (pid p) p now).1) s

/-- The `results` dictionary built by `ScanRunner.scan_states` (the runner
appends the whole program payload to the new and updated lists). -/
structure RunnerResults where
  scan_id : Nat
  new_incentives : List Payload
  updated_incentives : List Payload
  total_found : Nat
  errors : List String
deriving DecidableEq, Repr

/-- One iteration of the per-program loop of `ScanRunner.scan_states`
(with `include_details = False`). -/
def processRunner (now : Nat) (acc : Store × RunnerResults) (p : Payload) :
    Store × RunnerResults :=
  let did := pid p
  if did = "" then acc
  else
    let out := record_incentive acc.1 did p now
    let r := acc.2
    let r := if out.2.1 then { r with new_incentives := r.new_incentives ++ [p] } else r
    let r := if out.2.2 then { r with updated_incentives := r.updated_incentives ++ [p] } else r
    (out.1, { r with total_found := r.total_found + 1 })

/-- Per-scope loop of `ScanRunner.scan_states`.  The source calls the
progress callback before the per-scope `try` block, so a callback that
raises at loop index `i` (modelled by `cbFault = some i`) escapes the whole
function: the result component is `none` and the scan row is never closed.
A fetch failure is caught inside the loop and tagged onto `errors`;
committed tracker writes of earlier scopes stay visible either way. -/
def scanStatesGo (fetch : String → Except String (List Payload))
    (cbFault : Option Nat) (now : Nat) :
    List String → Nat → Store → RunnerResults → Store × Option RunnerResults
  | [], _, s, r => (s, some r)
  | st :: rest, i, s, r =>
      if cbFault = some i then (s, none)
      else
        match fetch st with
        | .error msg =>
            scanStatesGo fetch cbFault now rest (i + 1) s
              { r with errors := r.errors ++ [st ++ ": " ++ msg] }
        | .ok ps =>
            let sr := ps.foldl (processRunner now) (s, r)
            scanStatesGo fetch cbFault now rest (i + 1) sr.1 sr.2

/-- Models `ScanRunner.scan_states`: opens a scan row, loops over the
scopes, and closes the row with status `completed` only when no exception
escaped the per-scope handling. -/
def scan_states (fetch : String → Except String (List Payload))
    (cbFault : Option Nat) (states : List String) (now : Nat) (s : Store) :
    Store × Option RunnerResults :=
  let opened := startScan s "manual" now
  let r0 : RunnerResults := ⟨opened.2, [], [], 0, []⟩
  match scanStatesGo fetch cbFault now states 0 opened.1 r0 with
  | (s', none) => (s', none)
  | (s', some r) =>
      (endScan s' opened.2 "completed" r.total_found r.new_incentives.length
        r.updated_incentives.length 0 none now, some r)

/-- Entry appended to the new/updated lists by `DailyScheduler.run_scan`
(the `discovered_at` and `program_type` fields of the source dictionaries
carry no information the claims talk about and are projected away). -/
structure SchedEntry where
  dsire_id : String
  name : String
  state : String
deriving DecidableEq, Repr

/-- The `results` dictionary built by `DailyScheduler.run_scan`. -/
structure SchedResults where
  scan_id : Nat
  new_incentives : List SchedEntry
  updated_incentives : List SchedEntry
  total_found : Nat
  errors : List String
  status : String
deriving DecidableEq, Repr

/-- One iteration of the per-program loop of `DailyScheduler.run_scan`
(with `include_details` unset). -/
def processSched (state : String) (now : Nat) (acc : Store × SchedResults)
    (p : Payload) : Store × SchedResults :=
  let did := pid p
  if did = "" then acc
  else
    let out := record_incentive acc.1 did p now
    let entry : SchedEntry := ⟨did, getFieldD p "name" "Unknown", state⟩
    let r := acc.2
    let r := if out.2.1 then { r with new_incentives := r.new_incentives ++ [entry] } else r
    let r := if out.2.2 then { r with updated_incentives := r.updated_incentives ++ [entry] } else r
    (out.1, { r with total_found := r.total_found + 1 })

/-- Per-scope loop of `DailyScheduler.run_scan`: any exception while
processing one scope is caught and appended to `errors` as a scope-tagged
message, and the loop continues. -/
def runScanLoop (fetch : String → Except String (List Payload)) (now : Nat) :
    List String → Store → SchedResults → Store × SchedResults
  | [], s, r => (s, r)
  | st :: rest, s, r =>
      match fetch st with
      | .error msg =>
          runScanLoop fetch now rest s
            { r with errors := r.errors ++ ["Error scanning " ++ st ++ ": " ++ msg] }
      | .ok ps =>
          let sr := ps.foldl (processSched st now) (s, r)
          runScanLoop fetch now rest sr.1 sr.2

/-- Models `DailyScheduler.run_scan`.  The whole loop and the completed
close sit in one outer `try`; `orchFault = true` models an exception raised
by the orchestration itself (outside the per-scope handler, e.g. a storage
error while closing), which the outer handler turns into a failed close. -/
def run_scan (fetch : String → Except String (List Payload)) (orchFault : Bool)
    (states : List String) (scanType : String) (now : Nat) (s : Store) :
    Store × SchedResults :=
  let opened := startScan s scanType now
  let r0 : SchedResults := ⟨opened.2, [], [], 0, [], "running"⟩
  let lr := runScanLoop fetch now states opened.1 r0
  if orchFault then
    (endScan lr.1 opened.2 "failed" 0 0 0 0 (some "orchestration error") now,
     { lr.2 with status := "failed" })
  else
    (endScan lr.1 opened.2 "completed" lr.2.total_found lr.2.new_incentives.length
      lr.2.updated_incentives.length 0 none now,
     { lr.2 with status := "completed" })

/-- The `DSIREClient.US_STATES` scope universe (states and territories). -/
def US_STATES : List String :=
  ["AL", "AK", "AZ", "AR", "CA", "CO", "CT", "DE", "FL", "GA",
   "HI", "ID", "IL", "IN", "IA", "KS", "KY", "LA", "ME", "MD",
   "MA", "MI", "MN", "MS", "MO", "MT", "NE", "NV", "NH", "NJ",
   "NM", "NY", "NC", "ND", "OH", "OK", "OR", "PA", "RI", "SC",
   "SD", "TN", "TX", "UT", "VT", "VA", "WA", "WV", "WI", "WY",
   "DC", "PR", "VI", "GU", "AS", "MP"]

/-- The `DailyScheduler.PRIORITY_STATES` set, always included in a daily
scan. -/
def PRIORITY_STATES : List String :=
  ["NY", "CA", "TX", "FL", "PA", "NJ", "MA", "CT"]

/-- The `DailyScheduler.STATE_GROUPS` rotation groups in dict insertion
order. -/
def STATE_GROUPS : List (String × List String) :=
  [("northeast", ["CT", "ME", "MA", "NH", "RI", "VT", "NJ", "NY", "PA"]),
   ("southeast", ["DE", "FL", "GA", "MD", "NC", "SC", "VA", "DC", "WV"]),
   ("midwest", ["IL", "IN", "MI", "OH", "WI", "IA", "KS", "MN", "MO", "NE", "ND", "SD"]),
   ("southwest", ["AZ", "NM", "OK", "TX"]),
   ("west", ["CO", "ID", "MT", "NV", "UT", "WY", "AK", "CA", "HI", "OR", "WA"]),
   ("south", ["AL", "KY", "MS", "TN", "AR", "LA"])]

/-- Models the duplicate-avoiding append of the group states onto the
priority list. -/
def addMissing (acc : List String) (sts : List String) : List String :=
  sts.foldl (fun a st => if st ∈ a then a else a ++ [st]) acc

/-- Models `DailyScheduler._get_states_for_today`: full universe on Sunday
(weekday 6) or when `scan_all_states` is configured, otherwise the priority
states plus the weekday rotation group. -/
def get_states_for_today (weekday : Nat) (scanAllStates : Bool) : List String :=
  if weekday = 6 ∨ scanAllStates then US_STATES
  else
    let groupIndex := weekday % STATE_GROUPS.length
    let group := ((STATE_GROUPS.get? groupIndex).map Prod.snd).getD []
    addMissing PRIORITY_STATES group

section ProjectionLemmas

variable (s : Store)

@[simp] theorem updateEntity_snapshots (eid : Nat) (f : Entity → Entity) :
    (updateEntity s eid f).snapshots = s.snapshots := rfl

@[simp] theorem updateEntity_changes (eid : Nat) (f : Entity → Entity) :
    (updateEntity s eid f).changes = s.changes := rfl

@[simp] theorem updateEntity_scans (eid : Nat) (f : Entity → Entity) :
    (updateEntity s eid f).scans = s.scans := rfl

@[simp] theorem updateEntity_incentives (eid : Nat) (f : Entity → Entity) :
    (updateEntity s eid f).incentives =
      s.incentives.map (fun e => if e.rowId = eid then f e else e) := rfl

@[simp] theorem updateEntity_nextScanId (eid : Nat) (f : Entity → Entity) :
    (updateEntity s eid f).nextScanId = s.nextScanId := rfl

@[simp] theorem updateEntity_nextSnapshotId (eid : Nat) (f : Entity → Entity) :
    (updateEntity s eid f).nextSnapshotId = s.nextSnapshotId := rfl

@[simp] theorem updateEntity_nextEntityId (eid : Nat) (f : Entity → Entity) :
    (updateEntity s eid f).nextEntityId = s.nextEntityId := rfl

@[simp] theorem updateEntity_nextChangeId (eid : Nat) (f : Entity → Entity) :
    (updateEntity s eid f).nextChangeId = s.nextChangeId := rfl

@[simp] theorem insertSnapshot_snapshots (eid : Nat) (data : Payload)
    (h : List (String × Value)) (now : Nat) :
    (insertSnapshot s eid data h now).snapshots =
      s.snapshots ++ [⟨s.nextSnapshotId, eid, data, h, now⟩] := rfl

@[simp] theorem insertSnapshot_incentives (eid : Nat) (data : Payload)
    (h : List (String × Value)) (now : Nat) :
    (insertSnapshot s eid data h now).incentives = s.incentives := rfl

@[simp] theorem insertSnapshot_changes (eid : Nat) (data : Payload)
    (h : List (String × Value)) (now : Nat) :
    (insertSnapshot s eid data h now).changes = s.changes := rfl

@[simp] theorem insertSnapshot_scans (eid : Nat) (data : Payload)
    (h : List (String × Value)) (now : Nat) :
    (insertSnapshot s eid data h now).scans = s.scans := rfl

@[simp] theorem insertSnapshot_nextScanId (eid : Nat) (data : Payload)
    (h : List (String × Value)) (now : Nat) :
    (insertSnapshot s eid data h now).nextScanId = s.nextScanId := rfl

@[simp] theorem insertSnapshot_nextEntityId (eid : Nat) (data : Payload)
    (h : List (String × Value)) (now : Nat) :
    (insertSnapshot s eid data h now).nextEntityId = s.nextEntityId := rfl

@[simp] theorem insertSnapshot_nextChangeId (eid : Nat) (data : Payload)
    (h : List (String × Value)) (now : Nat) :
    (insertSnapshot s eid data h now).nextChangeId = s.nextChangeId := rfl

@[simp] theorem insertChange_changes (eid : Nat) (f : String)
    (ov nv : Option String) (now : Nat) :
    (insertChange s eid f ov nv now).changes =
      s.changes ++ [⟨s.nextChangeId, eid, f, ov, nv, now⟩] := rfl

@[simp] theorem insertChange_snapshots (eid : Nat) (f : String)
    (ov nv : Option String) (now : Nat) :
    (insertChange s eid f ov nv now).snapshots = s.snapshots := rfl

@[simp] theorem insertChange_incentives (eid : Nat) (f : String)
    (ov nv : Option String) (now : Nat) :
    (insertChange s eid f ov nv now).incentives = s.incentives := rfl

@[simp] theorem insertChange_scans (eid : Nat) (f : String)
    (ov nv : Option String) (now : Nat) :
    (insertChange s eid f ov nv now).scans = s.scans := rfl

@[simp] theorem insertChange_nextScanId (eid : Nat) (f : String)
    (ov nv : Option String) (now : Nat) :
    (insertChange s eid f ov nv now).nextScanId = s.nextScanId := rfl

@[simp] theorem insertChange_nextSnapshotId (eid : Nat) (f : String)
    (ov nv : Option String) (now : Nat) :
    (insertChange s eid f ov nv now).nextSnapshotId = s.nextSnapshotId := rfl

@[simp] theorem insertChange_nextEntityId (eid : Nat) (f : String)
    (ov nv : Option String) (now : Nat) :
    (insertChange s eid f ov nv now).nextEntityId = s.nextEntityId := rfl

@[simp] theorem insertEntityRow_incentives (did : String) (data : Payload)
    (h : List (String × Value)) (now : Nat) :
    (insertEntityRow s did data h now).incentives =
      s.incentives ++
        [⟨s.nextEntityId, did, getFieldD data "name" "Unknown",
          getFieldD data "state" "", getFieldD data "program_type" "",
          now, now, none, h, true⟩] := rfl

@[simp] theorem insertEntityRow_snapshots (did : String) (data : Payload)
    (h : List (String × Value)) (now : Nat) :
    (insertEntityRow s did data h now).snapshots = s.snapshots := rfl

@[simp] theorem insertEntityRow_changes (did : String) (data : Payload)
    (h : List (String × Value)) (now : Nat) :
    (insertEntityRow s did data h now).changes = s.changes := rfl

@[simp] theorem insertEntityRow_scans (did : String) (data : Payload)
    (h : List (String × Value)) (now : Nat) :
    (insertEntityRow s did data h now).scans = s.scans := rfl

@[simp] theorem insertEntityRow_nextScanId (did : String) (data : Payload)
    (h : List (String × Value)) (now : Nat) :
    (insertEntityRow s did data h now).nextScanId = s.nextScanId := rfl

@[simp] theorem insertEntityRow_nextSnapshotId (did : String) (data : Payload)
    (h : List (String × Value)) (now : Nat) :
    (insertEntityRow s did data h now).nextSnapshotId = s.nextSnapshotId := rfl

@[simp] theorem insertEntityRow_nextEntityId (did : String) (data : Payload)
    (h : List (String × Value)) (now : Nat) :
    (insertEntityRow s did data h now).nextEntityId = s.nextEntityId + 1 := rfl

@[simp] theorem insertEntityRow_nextChangeId (did : String) (data : Payload)
    (h : List (String × Value)) (now : Nat) :
    (insertEntityRow s did data h now).nextChangeId = s.nextChangeId := rfl

@[simp] theorem startScan_fst_scans (ty : String) (now : Nat) :
    (startScan s ty now).1.scans =
      s.scans ++ [⟨s.nextScanId, ty, "running", 0, 0, 0, 0, none, now, none⟩] := rfl

@[simp] theorem startScan_fst_incentives (ty : String) (now : Nat) :
    (startScan s ty now).1.incentives = s.incentives := rfl

@[simp] theorem startScan_fst_snapshots (ty : String) (now : Nat) :
    (startScan s ty now).1.snapshots = s.snapshots := rfl

@[simp] theorem startScan_fst_changes (ty : String) (now : Nat) :
    (startScan s ty now).1.changes = s.changes := rfl

@[simp] theorem startScan_snd (ty : String) (now : Nat) :
    (startScan s ty now).2 = s.nextScanId := rfl

@[simp] theorem endScan_scans (scanId : Nat) (status : String)
    (total nw upd rem : Nat) (err : Option String) (now : Nat) :
    (endScan s scanId status total nw upd rem err now).scans =
      s.scans.map (fun r =>
        if r.rowId = scanId then
          { r with status := status, completed_at := some now, total_found := total,
                   new_count := nw, updated_count := upd, removed_count := rem,
                   error_message := err }
        else r) := rfl

@[simp] theorem endScan_incentives (scanId : Nat) (status : String)
    (total nw upd rem : Nat) (err : Option String) (now : Nat) :
    (endScan s scanId status total nw upd rem err now).incentives = s.incentives := rfl

@[simp] theorem endScan_snapshots (scanId : Nat) (status : String)
    (total nw upd rem : Nat) (err : Option String) (now : Nat) :
    (endScan s scanId status total nw upd rem err now).snapshots = s.snapshots := rfl

@[simp] theorem endScan_changes (scanId : Nat) (status : String)
    (total nw upd rem : Nat) (err : Option String) (now : Nat) :
    (endScan s scanId status total nw upd rem err now).changes = s.changes := rfl

end ProjectionLemmas

section RecordChangesLemmas

/-- The projection of a change row compared by the claims (everything except
the AUTOINCREMENT id). -/
def changeTuple (c : ChangeRow) :
    Nat × String × Option String × Option String × Nat :=
  (c.incentive_id, c.field_name, c.old_value, c.new_value, c.detected_at)

/-- The tracked fields whose stringified values differ between the two
payloads, in tracked-field order. -/
def diffFields (oldData newData : Payload) : List String :=
  tracked_fields.filter (fun f => trackedValue oldData f != trackedValue newData f)

theorem recordChangesAux_snapshots (fields : List String) (eid : Nat)
    (oldData newData : Payload) (now : Nat) (s : Store) :
    (recordChangesAux fields eid oldData newData now s).snapshots = s.snapshots := by
  induction fields generalizing s with
  | nil => rfl
  | cons f rest ih =>
      simp only [recordChangesAux]
      split <;> simp [ih]

theorem recordChangesAux_incentives (fields : List String) (eid : Nat)
    (oldData newData : Payload) (now : Nat) (s : Store) :
    (recordChangesAux fields eid oldData newData now s).incentives = s.incentives := by
  induction fields generalizing s with
  | nil => rfl
  | cons f rest ih =>
      simp only [recordChangesAux]
      split <;> simp [ih]

theorem recordChangesAux_scans (fields : List String) (eid : Nat)
    (oldData newData : Payload) (now : Nat) (s : Store) :
    (recordChangesAux fields eid oldData newData now s).scans = s.scans := by
  induction fields generalizing s with
  | nil => rfl
  | cons f rest ih =>
      simp only [recordChangesAux]
      split <;> simp [ih]

theorem recordChangesAux_nextScanId (fields : List String) (eid : Nat)
    (oldData newData : Payload) (now : Nat) (s : Store) :
    (recordChangesAux fields eid oldData newData now s).nextScanId = s.nextScanId := by
  induction fields generalizing s with
  | nil => rfl
  | cons f rest ih =>
      simp only [recordChangesAux]
      split <;> simp [ih]

theorem recordChangesAux_nextSnapshotId (fields : List String) (eid : Nat)
    (oldData newData : Payload) (now : Nat) (s : Store) :
    (recordChangesAux fields eid oldData newData now s).nextSnapshotId =
      s.nextSnapshotId := by
  induction fields generalizing s with
  | nil => rfl
  | cons f rest ih =>
      simp only [recordChangesAux]
      split <;> simp [ih]

theorem recordChangesAux_nextEntityId (fields : List String) (eid : Nat)
    (oldData newData : Payload) (now : Nat) (s : Store) :
    (recordChangesAux fields eid oldData newData now s).nextEntityId =
      s.nextEntityId := by
  induction fields generalizing s with
  | nil => rfl
  | cons f rest ih =>
      simp only [recordChangesAux]
      split <;> simp [ih]

theorem recordChangesAux_changes (fields : List String) (eid : Nat)
    (oldData newData : Payload) (now : Nat) (s : Store) :
    (recordChangesAux fields eid oldData newData now s).changes.map changeTuple =
      s.changes.map changeTuple ++
        (fields.filter (fun f => trackedValue oldData f != trackedValue newData f)).map
          (fun f => (eid, f, trackedValue oldData f, trackedValue newData f, now)) := by
  induction fields generalizing s with
  | nil => simp [recordChangesAux]
  | cons f rest ih =>
      simp only [recordChangesAux, List.filter_cons]
      by_cases h : trackedValue oldData f = trackedValue newData f
      · simp [h, ih]
      · simp only [h, bne_iff_ne, ne_eq, not_false_eq_true, if_true, ite_true]
        rw [ih]
        simp [changeTuple, h]

theorem recordChanges_changes (eid : Nat) (oldData newData : Payload)
    (now : Nat) (s : Store) :
    (recordChanges s eid oldData newData now).changes.map changeTuple =
      s.changes.map changeTuple ++
        (diffFields oldData newData).map
          (fun f => (eid, f, trackedValue oldData f, trackedValue newData f, now)) :=
  recordChangesAux_changes tracked_fields eid oldData newData now s

/-- When every tracked field agrees, `_record_changes` writes nothing. -/
theorem recordChangesAux_id (fields : List String) (eid : Nat)
    (oldData newData : Payload) (now : Nat) (s : Store)
    (h : ∀ f ∈ fields, trackedValue oldData f = trackedValue newData f) :
    recordChangesAux fields eid oldData newData now s = s := by
  induction fields generalizing s with
  | nil => rfl
  | cons f rest ih =>
      simp only [recordChangesAux]
      rw [if_neg (by simp [h f (List.mem_cons_self f rest)])]
      exact ih s (fun g hg => h g (List.mem_cons_of_mem f hg))

end RecordChangesLemmas

section FindEntityLemmas

theorem findEntity_none_iff (s : Store) (did : String) :
    findEntity s did = none ↔ ∀ e ∈ s.incentives, e.dsire_id ≠ did := by
  simp [findEntity, List.find?_eq_none]

theorem findEntity_mem (s : Store) (did : String) (e : Entity)
    (h : findEntity s did = some e) : e ∈ s.incentives ∧ e.dsire_id = did := by
  refine ⟨List.mem_of_find?_eq_some h, ?_⟩
  have := List.find?_some h
  simpa using this

/-- After inserting a fresh entity row, looking the id up finds exactly that
row. -/
theorem findEntity_after_insert (s : Store) (did : String) (data : Payload)
    (h : List (String × Value)) (now : Nat) (hnone : findEntity s did = none) :
    findEntity (insertEntityRow s did data h now) did =
      some ⟨s.nextEntityId, did, getFieldD data "name" "Unknown",
        getFieldD data "state" "", getFieldD data "program_type" "",
        now, now, none, h, true⟩ := by
  unfold findEntity at *
  simp only [insertEntityRow_incentives]
  rw [List.find?_append, hnone]
  simp

end FindEntityLemmas

section RecordIncentiveLemmas

@[simp] theorem latestSnapshot_updateEntity (s : Store) (i : Nat)
    (f : Entity → Entity) (eid : Nat) :
    latestSnapshot (updateEntity s i f) eid = latestSnapshot s eid := rfl

variable (s : Store) (did : String) (data : Payload) (now : Nat)

/-- New-entity branch of `record_incentive`. -/
theorem record_new (h : findEntity s did = none) :
    record_incentive s did data now =
      (insertSnapshot (insertEntityRow s did data (computeHash data) now)
        s.nextEntityId data (computeHash data) now, true, false) := by
  unfold record_incentive
  rw [h]

/-- Unchanged branch of `record_incentive`: same stored hash, only
`last_seen_at` and `is_active` are refreshed. -/
theorem record_unchanged (e : Entity) (h : findEntity s did = some e)
    (hh : e.data_hash = computeHash data) :
    record_incentive s did data now =
      (updateEntity s e.rowId
        (fun x => { x with last_seen_at := now, is_active := true }), false, false) := by
  unfold record_incentive
  rw [h]
  simp [hh]

/-- Updated branch of `record_incentive` as one store equality. -/
theorem record_updated_eq (e : Entity) (h : findEntity s did = some e)
    (hne : e.data_hash ≠ computeHash data) :
    record_incentive s did data now =
      (updateEntity
        (insertSnapshot
          (match latestSnapshot s e.rowId with
           | some os =>
               recordChanges
                 (updateEntity s e.rowId
                   (fun x => { x with last_seen_at := now, is_active := true }))
                 e.rowId os.data_json data now
           | none =>
               updateEntity s e.rowId
                 (fun x => { x with last_seen_at := now, is_active := true }))
          e.rowId data (computeHash data) now)
        e.rowId
        (fun x =>
          { x with data_hash := computeHash data, last_updated_at := some now }),
       false, true) := by
  unfold record_incentive
  rw [h]
  simp [hne]

theorem record_updated_snd (e : Entity) (h : findEntity s did = some e)
    (hne : e.data_hash ≠ computeHash data) :
    (record_incentive s did data now).2 = (false, true) := by
  rw [record_updated_eq s did data now e h hne]

theorem record_updated_snapshots (e : Entity) (h : findEntity s did = some e)
    (hne : e.data_hash ≠ computeHash data) :
    (record_incentive s did data now).1.snapshots =
      s.snapshots ++ [⟨s.nextSnapshotId, e.rowId, data, computeHash data, now⟩] := by
  rw [record_updated_eq s did data now e h hne]
  cases hl : latestSnapshot s e.rowId <;>
    simp [recordChangesAux_snapshots, recordChangesAux_nextSnapshotId, recordChanges]

theorem record_updated_changes (e : Entity) (os : Snapshot)
    (h : findEntity s did = some e) (hne : e.data_hash ≠ computeHash data)
    (hl : latestSnapshot s e.rowId = some os) :
    (record_incentive s did data now).1.changes.map changeTuple =
      s.changes.map changeTuple ++
        (diffFields os.data_json data).map
          (fun f => (e.rowId, f, trackedValue os.data_json f,
            trackedValue data f, now)) := by
  rw [record_updated_eq s did data now e h hne, hl]
  simp [recordChanges_changes]

theorem record_updated_incentives (e : Entity) (h : findEntity s did = some e)
    (hne : e.data_hash ≠ computeHash data) :
    (record_incentive s did data now).1.incentives =
      s.incentives.map (fun x =>
        if x.rowId = e.rowId then
          { x with last_seen_at := now, is_active := true,
                   data_hash := computeHash data, last_updated_at := some now }
        else x) := by
  rw [record_updated_eq s did data now e h hne]
  cases hl : latestSnapshot s e.rowId <;>
    · simp only [updateEntity_incentives, insertSnapshot_incentives,
        recordChangesAux_incentives, recordChanges, List.map_map]
      apply List.map_congr_left
      intro x _
      by_cases hx : x.rowId = e.rowId <;> simp [Function.comp, hx]

/-- `record_incentive` never touches the scan log. -/
theorem record_incentive_scans :
    (record_incentive s did data now).1.scans = s.scans := by
  cases h : findEntity s did with
  | none => rw [record_new s did data now h]; simp
  | some e =>
      by_cases hh : e.data_hash = computeHash data
      · rw [record_unchanged s did data now e h hh]
        rfl
      · rw [record_updated_eq s did data now e h hh]
        cases hl : latestSnapshot s e.rowId <;>
          simp [recordChangesAux_scans, recordChanges]

theorem record_incentive_nextScanId :
    (record_incentive s did data now).1.nextScanId = s.nextScanId := by
  cases h : findEntity s did with
  | none => rw [record_new s did data now h]; simp [insertSnapshot, insertEntityRow]
  | some e =>
      by_cases hh : e.data_hash = computeHash data
      · rw [record_unchanged s did data now e h hh]
        rfl
      · rw [record_updated_eq s did data now e h hh]
        cases hl : latestSnapshot s e.rowId <;>
          simp [recordChangesAux_nextScanId, recordChanges, insertSnapshot, updateEntity]

theorem recordPrograms_scans (now : Nat) (ps : List Payload) (s : Store) :
    (recordPrograms now s ps).scans = s.scans := by
  induction ps generalizing s with
  | nil => rfl
  | cons p rest ih =>
      simp only [recordPrograms, List.foldl_cons]
      split <;> rw [← recordPrograms, ih] <;> simp [record_incentive_scans]

theorem recordPrograms_nextScanId (now : Nat) (ps : List Payload) (s : Store) :
    (recordPrograms now s ps).nextScanId = s.nextScanId := by
  induction ps generalizing s with
  | nil => rfl
  | cons p rest ih =>
      simp only [recordPrograms, List.foldl_cons]
      split <;> rw [← recordPrograms, ih] <;> simp [record_incentive_nextScanId]

end RecordIncentiveLemmas

section HashLemmas

/-- A payload with pairwise distinct keys (every Python dict satisfies
this). -/
def NodupKeys (d : Payload) : Prop := (d.map Prod.fst).Nodup

instance (d : Payload) : Decidable (NodupKeys d) :=
  inferInstanceAs (Decidable (d.map Prod.fst).Nodup)

theorem strLeb_antisymm (a b : String) (hab : strLeb a b = true)
    (hba : strLeb b a = true) : a = b := by
  cases a with
  | mk da =>
      cases b with
      | mk db =>
          have : da = db := charsLeb_antisymm da db hab hba
          rw [this]

/-- Strict key order: used to pin down sorted lists with distinct keys. -/
def keyLT (p q : String × Value) : Prop := keyLE p q ∧ p.1 ≠ q.1

instance : IsAntisymm (String × Value) keyLT :=
  ⟨fun a b h h' => absurd (strLeb_antisymm a.1 b.1 h.1 h'.1) h.2⟩

theorem sorted_keyLT_of_sorted_keyLE (l : List (String × Value))
    (hs : List.Sorted keyLE l) (hn : (l.map Prod.fst).Nodup) :
    List.Sorted keyLT l := by
  have hne : l.Pairwise (fun a b : String × Value => a.1 ≠ b.1) :=
    List.pairwise_map.mp hn
  exact (hs.and hne).imp (fun h => ⟨h.1, h.2⟩)

/-- The content hash is invariant under reordering of the attribute map:
the two canonical serializations coincide. -/
theorem computeHash_perm (d₁ d₂ : Payload) (h₁ : NodupKeys d₁)
    (hp : d₁.Perm d₂) : computeHash d₁ = computeHash d₂ := by
  have p₁ : (computeHash d₁).Perm d₁ := List.perm_insertionSort keyLE d₁
  have p₂ : (computeHash d₂).Perm d₂ := List.perm_insertionSort keyLE d₂
  have hp' : (computeHash d₁).Perm (computeHash d₂) :=
    (p₁.trans hp).trans p₂.symm
  have h₂ : NodupKeys d₂ := (hp.map Prod.fst).nodup_iff.mp h₁
  have n₁ : ((computeHash d₁).map Prod.fst).Nodup :=
    ((p₁.map Prod.fst).nodup_iff).mpr h₁
  have n₂ : ((computeHash d₂).map Prod.fst).Nodup :=
    ((p₂.map Prod.fst).nodup_iff).mpr h₂
  exact List.eq_of_perm_of_sorted hp'
    (sorted_keyLT_of_sorted_keyLE _ (List.sorted_insertionSort keyLE d₁) n₁)
    (sorted_keyLT_of_sorted_keyLE _ (List.sorted_insertionSort keyLE d₂) n₂)

theorem dataGet_eq_some_iff (d : Payload) (hk : NodupKeys d) (k : String)
    (v : Value) : dataGet d k = some v ↔ (k, v) ∈ d := by
  induction d with
  | nil => simp [dataGet]
  | cons p rest ih =>
      obtain ⟨k', v'⟩ := p
      have hk' : NodupKeys rest := by
        simpa [NodupKeys] using (List.nodup_cons.mp hk).2
      have hknot : k' ∉ rest.map Prod.fst := by
        simpa [NodupKeys] using (List.nodup_cons.mp hk).1
      by_cases h : k' = k
      · subst h
        simp only [dataGet, if_pos rfl, List.mem_cons]
        constructor
        · intro hv
          injection hv with hv
          exact Or.inl (by rw [hv])
        · rintro (hv | hv)
          · injection hv with h1 h2
            rw [h2]
            simp
          · exact absurd (List.mem_map.mpr ⟨(k', v), hv, rfl⟩) hknot
      · simp only [dataGet, if_neg h, List.mem_cons]
        rw [ih hk']
        constructor
        · exact fun hm => Or.inr hm
        · rintro (hm | hm)
          · exact absurd (congrArg Prod.fst hm).symm h
          · exact hm

theorem dataGet_eq_none_iff (d : Payload) (k : String) :
    dataGet d k = none ↔ k ∉ d.map Prod.fst := by
  induction d with
  | nil => simp [dataGet]
  | cons p rest ih =>
      obtain ⟨k', v'⟩ := p
      by_cases h : k' = k
      · subst h
        simp [dataGet]
      · simp only [dataGet, if_neg h, List.map_cons]
        rw [ih]
        constructor
        · intro hnot hmem
          rcases List.mem_cons.mp hmem with h1 | h1
          · exact h h1.symm
          · exact hnot h1
        · intro hnot hmem
          exact hnot (List.mem_cons_of_mem _ hmem)

/-- Payloads equal as maps (a permutation with distinct keys) agree on
every lookup. -/
theorem dataGet_perm (d₁ d₂ : Payload) (h₁ : NodupKeys d₁)
    (hp : d₁.Perm d₂) (k : String) : dataGet d₁ k = dataGet d₂ k := by
  have h₂ : NodupKeys d₂ := (hp.map Prod.fst).nodup_iff.mp h₁
  cases hv : dataGet d₁ k with
  | some v =>
      have : (k, v) ∈ d₁ := (dataGet_eq_some_iff d₁ h₁ k v).mp hv
      exact ((dataGet_eq_some_iff d₂ h₂ k v).mpr (hp.mem_iff.mp this)).symm
  | none =>
      have : k ∉ d₁.map Prod.fst := (dataGet_eq_none_iff d₁ k).mp hv
      have : k ∉ d₂.map Prod.fst := fun hm =>
        this ((hp.map Prod.fst).mem_iff.mpr hm)
      exact ((dataGet_eq_none_iff d₂ k).mpr this).symm

/-- If the canonical serializations agree, the payloads are equal as maps. -/
theorem dataGet_of_computeHash_eq (d₁ d₂ : Payload) (h₁ : NodupKeys d₁)
    (hh : computeHash d₁ = computeHash d₂) (k : String) :
    dataGet d₁ k = dataGet d₂ k := by
  have p₁ : d₁.Perm (computeHash d₁) := (List.perm_insertionSort keyLE d₁).symm
  have p₂ : (computeHash d₂).Perm d₂ := List.perm_insertionSort keyLE d₂
  rw [hh] at p₁
  exact dataGet_perm d₁ d₂ h₁ (p₁.trans p₂) k

end HashLemmas

@[simp] theorem findEntity_insertSnapshot (s : Store) (eid : Nat)
    (data : Payload) (h : List (String × Value)) (now : Nat) (did : String) :
    findEntity (insertSnapshot s eid data h now) did = findEntity s did := rfl

/-- C1 counterexample: recording `{name:"X", amount:"$100"}` and then
`{name:"X", amount:"$200"}` for the same id does return `(false, true)`,
but emits zero ChangeEvents — `amount` is not in the tracked-field list
(`incentive_amount` is), so no row with field `amount`, old `$100`,
new `$200` exists, contrary to the claimed exactly-one row. -/
theorem c1_amount_example_refuted :
    ((record_incentive
        (record_incentive Store.empty "P1"
          [("name", Value.str "X"), ("amount", Value.str "$100")] 1).1 "P1"
        [("name", Value.str "X"), ("amount", Value.str "$200")] 2).2 =
      (false, true)) ∧
    (record_incentive
        (record_incentive Store.empty "P1"
          [("name", Value.str "X"), ("amount", Value.str "$100")] 1).1 "P1"
        [("name", Value.str "X"), ("amount", Value.str "$200")] 2).1.changes =
      [] := by
  exact ⟨by decide, by decide⟩

/-- C1 (amended): on an update with a differing content hash,
`record_incentive` returns `(false, true)` and the change rows written are
exactly one per tracked field whose stringified value (with `None` as the
absent sentinel) differs between the previous snapshot and the new payload,
zero per unchanged tracked field, all sharing the single `detected_at` of
the call; a field such as the example key `amount` that is outside the
tracked-field list never produces a row, while the tracked spelling
`incentive_amount` produces exactly one. -/
theorem c1_change_events (s : Store) (did : String) (data : Payload)
    (now : Nat) (e : Entity) (os : Snapshot)
    (h : findEntity s did = some e)
    (hl : latestSnapshot s e.rowId = some os)
    (hne : e.data_hash ≠ computeHash data) :
    (record_incentive s did data now).2 = (false, true) ∧
    (record_incentive s did data now).1.changes.map changeTuple =
      s.changes.map changeTuple ++
        (diffFields os.data_json data).map
          (fun f => (e.rowId, f, trackedValue os.data_json f,
            trackedValue data f, now)) :=
  ⟨record_updated_snd s did data now e h hne,
   record_updated_changes s did data now e os h hne hl⟩

/-- Payload of the first observation in the amended C1 example. -/
def examplePayloadA : Payload :=
  [("name", Value.str "X"), ("incentive_amount", Value.str "$100")]

/-- Payload of the second observation in the amended C1 example. -/
def examplePayloadB : Payload :=
  [("name", Value.str "X"), ("incentive_amount", Value.str "$200")]

/-- Store after recording the first observation of the C1 example. -/
def exampleStoreA : Store :=
  (record_incentive Store.empty "P7" examplePayloadA 1).1

/-- The tracked entity created by the first observation of the C1
example. -/
def exampleEntityA : Entity :=
  ⟨1, "P7", "X", "", "", 1, 1, none, computeHash examplePayloadA, true⟩

/-- The snapshot created by the first observation of the C1 example. -/
def exampleSnapA : Snapshot :=
  ⟨1, 1, examplePayloadA, computeHash examplePayloadA, 1⟩

theorem c1_change_events_witness :
    findEntity exampleStoreA "P7" = some exampleEntityA ∧
    latestSnapshot exampleStoreA exampleEntityA.rowId = some exampleSnapA ∧
    exampleEntityA.data_hash ≠ computeHash examplePayloadB ∧
    ((record_incentive exampleStoreA "P7" examplePayloadB 2).2 = (false, true) ∧
     (record_incentive exampleStoreA "P7" examplePayloadB 2).1.changes.map changeTuple =
       exampleStoreA.changes.map changeTuple ++
         (diffFields exampleSnapA.data_json examplePayloadB).map
           (fun f => (exampleEntityA.rowId, f,
             trackedValue exampleSnapA.data_json f,
             trackedValue examplePayloadB f, 2))) :=
  ⟨by decide, by decide, by decide,
   c1_change_events exampleStoreA "P7" examplePayloadB 2 exampleEntityA
     exampleSnapA (by decide) (by decide) (by decide)⟩

/-- C2: recording the same payload twice for a previously unseen id yields
`(true, false)` then `(false, false)`, and the second call adds no snapshot
row and no change row. -/
theorem c2_idempotence (s : Store) (did : String) (data : Payload)
    (now₁ now₂ : Nat) (h : findEntity s did = none) :
    (record_incentive s did data now₁).2 = (true, false) ∧
    (record_incentive (record_incentive s did data now₁).1 did data now₂).2 =
      (false, false) ∧
    (record_incentive (record_incentive s did data now₁).1 did data now₂).1.snapshots =
      (record_incentive s did data now₁).1.snapshots ∧
    (record_incentive (record_incentive s did data now₁).1 did data now₂).1.changes =
      (record_incentive s did data now₁).1.changes := by
  rw [record_new s did data now₁ h]
  have hf :
      findEntity
        (insertSnapshot (insertEntityRow s did data (computeHash data) now₁)
          s.nextEntityId data (computeHash data) now₁) did =
      some ⟨s.nextEntityId, did, getFieldD data "name" "Unknown",
        getFieldD data "state" "", getFieldD data "program_type" "",
        now₁, now₁, none, computeHash data, true⟩ := by
    rw [findEntity_insertSnapshot]
    exact findEntity_after_insert s did data (computeHash data) now₁ h
  rw [record_unchanged _ did data now₂ _ hf rfl]
  exact ⟨rfl, rfl, rfl, rfl⟩

theorem c2_idempotence_witness :
    findEntity Store.empty "P1" = none ∧
    ((record_incentive Store.empty "P1" examplePayloadA 1).2 = (true, false) ∧
     (record_incentive (record_incentive Store.empty "P1" examplePayloadA 1).1
        "P1" examplePayloadA 2).2 = (false, false) ∧
     (record_incentive (record_incentive Store.empty "P1" examplePayloadA 1).1
        "P1" examplePayloadA 2).1.snapshots =
       (record_incentive Store.empty "P1" examplePayloadA 1).1.snapshots ∧
     (record_incentive (record_incentive Store.empty "P1" examplePayloadA 1).1
        "P1" examplePayloadA 2).1.changes =
       (record_incentive Store.empty "P1" examplePayloadA 1).1.changes) :=
  ⟨by decide, c2_idempotence Store.empty "P1" examplePayloadA 1 2 (by decide)⟩

/-- C5: the content hash is key-order independent — payloads equal as maps
(a permutation, with distinct keys) get the same hash, so re-recording a
reordered but equal payload is no spurious update: the second call returns
`(false, false)`. -/
theorem c5_hash_order_independence (d₁ d₂ : Payload) (h₁ : NodupKeys d₁)
    (hp : d₁.Perm d₂) (s : Store) (did : String) (now₁ now₂ : Nat)
    (h : findEntity s did = none) :
    computeHash d₁ = computeHash d₂ ∧
    (record_incentive (record_incentive s did d₁ now₁).1 did d₂ now₂).2 =
      (false, false) := by
  have hh := computeHash_perm d₁ d₂ h₁ hp
  refine ⟨hh, ?_⟩
  rw [record_new s did d₁ now₁ h]
  have hf :
      findEntity
        (insertSnapshot (insertEntityRow s did d₁ (computeHash d₁) now₁)
          s.nextEntityId d₁ (computeHash d₁) now₁) did =
      some ⟨s.nextEntityId, did, getFieldD d₁ "name" "Unknown",
        getFieldD d₁ "state" "", getFieldD d₁ "program_type" "",
        now₁, now₁, none, computeHash d₁, true⟩ := by
    rw [findEntity_insertSnapshot]
    exact findEntity_after_insert s did d₁ (computeHash d₁) now₁ h
  rw [record_unchanged _ did d₂ now₂ _ hf hh]

theorem c5_hash_order_independence_witness :
    NodupKeys [("a", Value.num 1), ("b", Value.num 2)] ∧
    List.Perm [("a", Value.num 1), ("b", Value.num 2)]
      [("b", Value.num 2), ("a", Value.num 1)] ∧
    findEntity Store.empty "P1" = none ∧
    (computeHash [("a", Value.num 1), ("b", Value.num 2)] =
       computeHash [("b", Value.num 2), ("a", Value.num 1)] ∧
     (record_incentive
        (record_incentive Store.empty "P1"
          [("a", Value.num 1), ("b", Value.num 2)] 1).1 "P1"
        [("b", Value.num 2), ("a", Value.num 1)] 2).2 = (false, false)) :=
  ⟨by decide, List.Perm.swap _ _ _, by decide,
   c5_hash_order_independence
     [("a", Value.num 1), ("b", Value.num 2)]
     [("b", Value.num 2), ("a", Value.num 1)]
     (by decide) (List.Perm.swap _ _ _) Store.empty "P1" 1 2 (by decide)⟩

/-- C8: the daily scope selection always contains every priority state, and
on Sunday (weekday 6) or with `scan_all_states` configured it is exactly
the full `US_STATES` universe. -/
theorem c8_scope_rotation (weekday : Nat) (scanAll : Bool) (h : weekday < 7) :
    PRIORITY_STATES.all
      (fun st => (get_states_for_today weekday scanAll).contains st) = true ∧
    ((weekday = 6 ∨ scanAll = true) →
      get_states_for_today weekday scanAll = US_STATES) := by
  interval_cases weekday <;> cases scanAll <;> exact ⟨by decide, by decide⟩

theorem c8_scope_rotation_witness :
    (2 < 7 ∧
      PRIORITY_STATES.all
        (fun st => (get_states_for_today 2 false).contains st) = true ∧
      ((2 = 6 ∨ false = true) → get_states_for_today 2 false = US_STATES)) ∧
    (6 < 7 ∧
      PRIORITY_STATES.all
        (fun st => (get_states_for_today 6 false).contains st) = true ∧
      ((6 = 6 ∨ false = true) → get_states_for_today 6 false = US_STATES)) :=
  ⟨⟨by decide, c8_scope_rotation 2 false (by decide)⟩,
   ⟨by decide, c8_scope_rotation 6 false (by decide)⟩⟩

section LatestSnapshotLemmas

theorem foldl_snapMax_mem : ∀ (l : List Snapshot) (acc : Option Snapshot)
    (a : Snapshot), l.foldl snapMax acc = some a → acc = some a ∨ a ∈ l
  | [], _, _ => fun h => Or.inl h
  | x :: xs, acc, a => fun h => by
      rcases foldl_snapMax_mem xs (snapMax acc x) a h with h' | h'
      · cases acc with
        | none =>
            simp only [snapMax] at h'
            injection h' with h'
            exact Or.inr (h' ▸ List.mem_cons_self x xs)
        | some b =>
            by_cases hb : b.scraped_at < x.scraped_at
            · simp only [snapMax, if_pos hb] at h'
              injection h' with h'
              exact Or.inr (h' ▸ List.mem_cons_self x xs)
            · simp only [snapMax, if_neg hb] at h'
              exact Or.inl h'
      · exact Or.inr (List.mem_cons_of_mem _ h')

theorem foldl_snapMax_append_last (l : List Snapshot) (x : Snapshot)
    (hlt : ∀ y ∈ l, y.scraped_at < x.scraped_at) :
    (l ++ [x]).foldl snapMax none = some x := by
  rw [List.foldl_append]
  cases hacc : l.foldl snapMax none with
  | none => rfl
  | some a =>
      rcases foldl_snapMax_mem l none a hacc with h | h
      · simp at h
      · simp [snapMax, hlt a h]

/-- Inserting a snapshot whose capture time exceeds every existing capture
time of the same entity makes it the latest one. -/
theorem latestSnapshot_insert_newest (s : Store) (eid : Nat) (data : Payload)
    (h : List (String × Value)) (now : Nat)
    (hlt : ∀ sn ∈ s.snapshots, sn.incentive_id = eid → sn.scraped_at < now) :
    latestSnapshot (insertSnapshot s eid data h now) eid =
      some ⟨s.nextSnapshotId, eid, data, h, now⟩ := by
  unfold latestSnapshot
  simp only [insertSnapshot_snapshots]
  rw [List.filter_append]
  have hx : List.filter (fun sn => sn.incentive_id == eid)
      [(⟨s.nextSnapshotId, eid, data, h, now⟩ : Snapshot)] =
      [⟨s.nextSnapshotId, eid, data, h, now⟩] := by simp
  rw [hx]
  apply foldl_snapMax_append_last
  intro y hy
  have := List.mem_filter.mp hy
  exact hlt y this.1 (by simpa using this.2)

/-- Inserting the first snapshot of an entity makes it the latest one. -/
theorem latestSnapshot_insert_fresh (s : Store) (eid : Nat) (data : Payload)
    (h : List (String × Value)) (now : Nat)
    (hsn : ∀ sn ∈ s.snapshots, sn.incentive_id ≠ eid) :
    latestSnapshot (insertSnapshot s eid data h now) eid =
      some ⟨s.nextSnapshotId, eid, data, h, now⟩ :=
  latestSnapshot_insert_newest s eid data h now
    (fun sn hm heq => absurd heq (hsn sn hm))

/-- A snapshot of another entity does not affect the latest snapshot. -/
theorem latestSnapshot_insert_other (s : Store) (eid' eid : Nat)
    (data : Payload) (h : List (String × Value)) (now : Nat)
    (hne : eid' ≠ eid) :
    latestSnapshot (insertSnapshot s eid' data h now) eid =
      latestSnapshot s eid := by
  unfold latestSnapshot
  simp only [insertSnapshot_snapshots]
  rw [List.filter_append]
  have hx : List.filter (fun sn => sn.incentive_id == eid)
      [(⟨s.nextSnapshotId, eid', data, h, now⟩ : Snapshot)] = [] := by
    simp [hne]
  rw [hx, List.append_nil]

end LatestSnapshotLemmas

/-- C9: the content hash covers the whole payload, `scraped_at` included:
two payloads equal except for `scraped_at` hash differently, so the second
observation is classified as an update — `(false, true)` and a new
snapshot — while emitting zero ChangeEvents, because `scraped_at` is not a
tracked field. -/
theorem c9_scraped_at_in_hash (s : Store) (did : String) (d₁ d₂ : Payload)
    (now₁ now₂ : Nat) (h : findEntity s did = none)
    (hsn : ∀ sn ∈ s.snapshots, sn.incentive_id ≠ s.nextEntityId)
    (h₁ : NodupKeys d₁) (h₂ : NodupKeys d₂)
    (hagree : ∀ k ∈ d₁.map Prod.fst ++ d₂.map Prod.fst, k ≠ "scraped_at" →
      dataGet d₁ k = dataGet d₂ k)
    (hdiff : dataGet d₁ "scraped_at" ≠ dataGet d₂ "scraped_at") :
    computeHash d₁ ≠ computeHash d₂ ∧
    (record_incentive (record_incentive s did d₁ now₁).1 did d₂ now₂).2 =
      (false, true) ∧
    (record_incentive (record_incentive s did d₁ now₁).1 did d₂ now₂).1.snapshots.length =
      (record_incentive s did d₁ now₁).1.snapshots.length + 1 ∧
    (record_incentive (record_incentive s did d₁ now₁).1 did d₂ now₂).1.changes =
      (record_incentive s did d₁ now₁).1.changes := by
  have hne : computeHash d₁ ≠ computeHash d₂ := fun heq =>
    hdiff (dataGet_of_computeHash_eq d₁ d₂ h₁ heq "scraped_at")
  have hagreeAll : ∀ k, k ≠ "scraped_at" → dataGet d₁ k = dataGet d₂ k := by
    intro k hk
    by_cases hm : k ∈ d₁.map Prod.fst ++ d₂.map Prod.fst
    · exact hagree k hm hk
    · rw [List.mem_append] at hm
      push_neg at hm
      rw [(dataGet_eq_none_iff d₁ k).mpr hm.1,
          (dataGet_eq_none_iff d₂ k).mpr hm.2]
  have htracked : ∀ f ∈ tracked_fields, trackedValue d₁ f = trackedValue d₂ f := by
    intro f hf
    have hall : ∀ g ∈ tracked_fields, g ≠ "scraped_at" := by decide
    have hfs : f ≠ "scraped_at" := hall f hf
    rw [trackedValue, trackedValue, hagreeAll f hfs]
  rw [record_new s did d₁ now₁ h]
  set S₁ : Store :=
    insertSnapshot (insertEntityRow s did d₁ (computeHash d₁) now₁)
      s.nextEntityId d₁ (computeHash d₁) now₁ with hS₁
  have hf : findEntity S₁ did =
      some ⟨s.nextEntityId, did, getFieldD d₁ "name" "Unknown",
        getFieldD d₁ "state" "", getFieldD d₁ "program_type" "",
        now₁, now₁, none, computeHash d₁, true⟩ := by
    rw [hS₁, findEntity_insertSnapshot]
    exact findEntity_after_insert s did d₁ (computeHash d₁) now₁ h
  have hl : latestSnapshot S₁ s.nextEntityId =
      some ⟨s.nextSnapshotId, s.nextEntityId, d₁, computeHash d₁, now₁⟩ := by
    rw [hS₁]
    exact latestSnapshot_insert_fresh _ s.nextEntityId d₁ (computeHash d₁) now₁
      (by simpa using hsn)
  have hne' :
      (⟨s.nextEntityId, did, getFieldD d₁ "name" "Unknown",
        getFieldD d₁ "state" "", getFieldD d₁ "program_type" "",
        now₁, now₁, none, computeHash d₁, true⟩ : Entity).data_hash ≠
        computeHash d₂ := hne
  refine ⟨hne, record_updated_snd S₁ did d₂ now₂ _ hf hne', ?_, ?_⟩
  · rw [record_updated_snapshots S₁ did d₂ now₂ _ hf hne']
    simp
  · rw [record_updated_eq S₁ did d₂ now₂ _ hf hne']
    simp only [hl]
    have : recordChanges
        (updateEntity S₁ s.nextEntityId
          (fun x => { x with last_seen_at := now₂, is_active := true }))
        s.nextEntityId d₁ d₂ now₂ =
        updateEntity S₁ s.nextEntityId
          (fun x => { x with last_seen_at := now₂, is_active := true }) :=
      recordChangesAux_id tracked_fields s.nextEntityId d₁ d₂ now₂ _ htracked
    rw [this]
    rfl

/-- First payload of the C9 witness (the shape `_scrape_state_programs`
produces). -/
def scrapePayload1 : Payload :=
  [("id", Value.str "5678"), ("name", Value.str "Solar Rebate"),
   ("url", Value.str "https://x/5678"), ("state", Value.str "NY"),
   ("scraped_at", Value.str "2026-01-01T03:00:00")]

/-- Second payload of the C9 witness: identical except for `scraped_at`. -/
def scrapePayload2 : Payload :=
  [("id", Value.str "5678"), ("name", Value.str "Solar Rebate"),
   ("url", Value.str "https://x/5678"), ("state", Value.str "NY"),
   ("scraped_at", Value.str "2026-01-02T03:00:00")]

theorem c9_scraped_at_in_hash_witness :
    findEntity Store.empty "5678" = none ∧
    NodupKeys scrapePayload1 ∧ NodupKeys scrapePayload2 ∧
    dataGet scrapePayload1 "scraped_at" ≠ dataGet scrapePayload2 "scraped_at" ∧
    (computeHash scrapePayload1 ≠ computeHash scrapePayload2 ∧
     (record_incentive (record_incentive Store.empty "5678" scrapePayload1 1).1
        "5678" scrapePayload2 2).2 = (false, true) ∧
     (record_incentive (record_incentive Store.empty "5678" scrapePayload1 1).1
        "5678" scrapePayload2 2).1.snapshots.length =
       (record_incentive Store.empty "5678" scrapePayload1 1).1.snapshots.length + 1 ∧
     (record_incentive (record_incentive Store.empty "5678" scrapePayload1 1).1
        "5678" scrapePayload2 2).1.changes =
       (record_incentive Store.empty "5678" scrapePayload1 1).1.changes) :=
  ⟨by decide, by decide, by decide, by decide,
   c9_scraped_at_in_hash Store.empty "5678" scrapePayload1 scrapePayload2 1 2
     (by decide) (by intro sn hm; simp [Store.empty] at hm)
     (by decide) (by decide) (by decide) (by decide)⟩

section TransactionModel

/-- Connection-local state of one open transaction: the view of the
database seen through the connection, plus the count of mutating statements
already executed in this call.  A fault position counts writes. -/
structure Tx where
  store : Store
  writes : Nat
deriving DecidableEq, Repr

/-- One mutating `cursor.execute` inside the transaction.  `fault = some k`
raises at the k-th write of the call, modelling an arbitrary
mid-transaction storage failure. -/
def txWrite (fault : Option Nat) (f : Store → Store) (t : Tx) :
    Except Unit Tx :=
  if fault = some t.writes then .error () else .ok ⟨f t.store, t.writes + 1⟩

/-- `_record_changes` under the faultable write model. -/
def recordChangesTxAux (fault : Option Nat) (fields : List String) (eid : Nat)
    (oldData newData : Payload) (now : Nat) (t : Tx) : Except Unit Tx :=
  match fields with
  | [] => .ok t
  | f :: rest =>
      if trackedValue oldData f ≠ trackedValue newData f then
        match txWrite fault (fun st => insertChange st eid f
            (trackedValue oldData f) (trackedValue newData f) now) t with
        | .error er => .error er
        | .ok t' => recordChangesTxAux fault rest eid oldData newData now t'
      else recordChangesTxAux fault rest eid oldData newData now t

/-- Body of `record_incentive` under the faultable write model: reads go
against the connection-local store and each mutating statement is one
`txWrite`, in source order. -/
def record_incentive_body (fault : Option Nat) (did : String) (data : Payload)
    (now : Nat) (t : Tx) : Except Unit (Tx × Bool × Bool) :=
  match findEntity t.store did with
  | none =>
      let eid := t.store.nextEntityId
      match txWrite fault
          (fun st => insertEntityRow st did data (computeHash data) now) t with
      | .error er => .error er
      | .ok t1 =>
          match txWrite fault
              (fun st => insertSnapshot st eid data (computeHash data) now) t1 with
          | .error er => .error er
          | .ok t2 => .ok (t2, true, false)
  | some e =>
      match txWrite fault (fun st => updateEntity st e.rowId
          (fun x => { x with last_seen_at := now, is_active := true })) t with
      | .error er => .error er
      | .ok t1 =>
          if e.data_hash ≠ computeHash data then
            match
              (match latestSnapshot t1.store e.rowId with
               | some os =>
                   recordChangesTxAux fault tracked_fields e.rowId
                     os.data_json data now t1
               | none => .ok t1) with
            | .error er => .error er
            | .ok t2 =>
                match txWrite fault (fun st => insertSnapshot st e.rowId data
                    (computeHash data) now) t2 with
                | .error er => .error er
                | .ok t3 =>
                    match txWrite fault (fun st => updateEntity st e.rowId
                        (fun x =>
                          { x with data_hash := computeHash data, last_updated_at := some now }))
                        t3 with
                    | .error er => .error er
                    | .ok t4 => .ok (t4, false, true)
          else .ok (t1, false, false)

/-- The `_get_connection` context manager: on normal return the transaction
is committed and the connection-local store published; on an exception the
transaction is rolled back and the caller keeps the original store. -/
def record_incentive_tx (fault : Option Nat) (did : String) (data : Payload)
    (now : Nat) (s : Store) : Except Unit (Store × Bool × Bool) :=
  match record_incentive_body fault did data now ⟨s, 0⟩ with
  | .ok out => .ok (out.1.store, out.2)
  | .error er => .error er

/-- The database as seen by any later observer: the committed result on
success, the untouched original store after a rollback. -/
def observableStore (fault : Option Nat) (did : String) (data : Payload)
    (now : Nat) (s : Store) : Store :=
  match record_incentive_tx fault did data now s with
  | .ok out => out.1
  | .error _ => s

theorem txWrite_cases (fault : Option Nat) (f : Store → Store) (t : Tx) :
    txWrite fault f t = .error () ∨
      txWrite fault f t = .ok ⟨f t.store, t.writes + 1⟩ := by
  unfold txWrite
  split <;> simp

theorem txWrite_none (f : Store → Store) (t : Tx) :
    txWrite none f t = .ok ⟨f t.store, t.writes + 1⟩ := by
  simp [txWrite]

theorem recordChangesTxAux_cases (fault : Option Nat) :
    ∀ (fields : List String) (eid : Nat) (oldData newData : Payload)
      (now : Nat) (t : Tx),
      recordChangesTxAux fault fields eid oldData newData now t = .error () ∨
      ∃ n, recordChangesTxAux fault fields eid oldData newData now t =
        .ok ⟨recordChangesAux fields eid oldData newData now t.store, n⟩
  | [], eid, od, nd, now, t => Or.inr ⟨t.writes, rfl⟩
  | f :: rest, eid, od, nd, now, t => by
      have heq : recordChangesTxAux fault (f :: rest) eid od nd now t =
          if trackedValue od f ≠ trackedValue nd f then
            match txWrite fault (fun st => insertChange st eid f
                (trackedValue od f) (trackedValue nd f) now) t with
            | .error er => .error er
            | .ok t' => recordChangesTxAux fault rest eid od nd now t'
          else recordChangesTxAux fault rest eid od nd now t := rfl
      have heq' : recordChangesAux (f :: rest) eid od nd now t.store =
          recordChangesAux rest eid od nd now
            (if trackedValue od f ≠ trackedValue nd f then
              insertChange t.store eid f
                (trackedValue od f) (trackedValue nd f) now
            else t.store) := rfl
      by_cases h : trackedValue od f = trackedValue nd f
      · rw [heq, heq', if_neg (not_not_intro h), if_neg (not_not_intro h)]
        exact recordChangesTxAux_cases fault rest eid od nd now t
      · rw [heq, heq', if_pos h, if_pos h]
        rcases txWrite_cases fault (fun st => insertChange st eid f
            (trackedValue od f) (trackedValue nd f) now) t with hw | hw
        · rw [hw]
          exact Or.inl rfl
        · rw [hw]
          exact recordChangesTxAux_cases fault rest eid od nd now
            ⟨insertChange t.store eid f
              (trackedValue od f) (trackedValue nd f) now, t.writes + 1⟩

/-- The faultable transaction either raises — and then commits nothing — or
commits exactly the atomic result of `record_incentive`. -/
theorem record_incentive_tx_cases (fault : Option Nat) (did : String)
    (data : Payload) (now : Nat) (s : Store) :
    record_incentive_tx fault did data now s = .error () ∨
    record_incentive_tx fault did data now s =
      .ok (record_incentive s did data now) := by
  unfold record_incentive_tx record_incentive_body
  cases hfe : findEntity s did with
  | none =>
      rw [record_new s did data now hfe]
      simp only [hfe]
      rcases txWrite_cases fault
        (fun st => insertEntityRow st did data (computeHash data) now)
        ⟨s, 0⟩ with h1 | h1 <;> simp only [h1]
      · exact Or.inl (by simp)
      · rcases txWrite_cases fault
          (fun st => insertSnapshot st s.nextEntityId data (computeHash data) now)
          ⟨insertEntityRow s did data (computeHash data) now, 1⟩ with h2 | h2 <;>
            simp only [h2]
        · exact Or.inl (by simp)
        · exact Or.inr (by simp [recordChanges])
  | some e =>
      simp only [hfe]
      rcases txWrite_cases fault
        (fun st => updateEntity st e.rowId
          (fun x => { x with last_seen_at := now, is_active := true }))
        ⟨s, 0⟩ with h1 | h1 <;> simp only [h1]
      · exact Or.inl (by simp)
      · by_cases hh : e.data_hash = computeHash data

        · rw [record_unchanged s did data now e hfe hh]
          rw [if_neg (by simp [hh])]
          exact Or.inr (by simp [recordChanges])
        · rw [record_updated_eq s did data now e hfe hh]
          rw [if_pos hh]
          cases hl : latestSnapshot s e.rowId with
          | none =>
              simp only [latestSnapshot_updateEntity, hl]
              rcases txWrite_cases fault
                (fun st => insertSnapshot st e.rowId data (computeHash data) now)
                ⟨updateEntity s e.rowId
                  (fun x => { x with last_seen_at := now, is_active := true }),
                 1⟩ with h2 | h2 <;> simp only [h2]
              · exact Or.inl (by simp)
              · rcases txWrite_cases fault
                  (fun st => updateEntity st e.rowId
                    (fun x =>
                      { x with data_hash := computeHash data, last_updated_at := some now }))
                  ⟨insertSnapshot
                     (updateEntity s e.rowId
                       (fun x => { x with last_seen_at := now, is_active := true }))
                     e.rowId data (computeHash data) now, 2⟩ with h3 | h3 <;>
                    simp only [h3]
                · exact Or.inl (by simp)
                · exact Or.inr (by simp [recordChanges])
          | some os =>
              simp only [latestSnapshot_updateEntity, hl]
              rcases recordChangesTxAux_cases fault tracked_fields e.rowId
                os.data_json data now
                ⟨updateEntity s e.rowId
                  (fun x => { x with last_seen_at := now, is_active := true }),
                 1⟩ with h2 | ⟨n, h2⟩ <;> simp only [h2]
              · exact Or.inl (by simp)
              · rcases txWrite_cases fault
                  (fun st => insertSnapshot st e.rowId data (computeHash data) now)
                  ⟨recordChangesAux tracked_fields e.rowId os.data_json data now
                     (updateEntity s e.rowId
                       (fun x => { x with last_seen_at := now, is_active := true })),
                   n⟩ with h3 | h3 <;> simp only [h3]
                · exact Or.inl (by simp)
                · rcases txWrite_cases fault
                    (fun st => updateEntity st e.rowId
                      (fun x =>
                        { x with data_hash := computeHash data, last_updated_at := some now }))
                    ⟨insertSnapshot
                       (recordChangesAux tracked_fields e.rowId os.data_json data
                          now
                          (updateEntity s e.rowId
                            (fun x =>
                              { x with last_seen_at := now, is_active := true })))
                       e.rowId data (computeHash data) now, n + 1⟩ with h4 | h4 <;>
                      simp only [h4]
                  · exact Or.inl (by simp)
                  · exact Or.inr (by simp [recordChanges])

theorem recordChangesTxAux_none_ok (fields : List String) (eid : Nat)
    (oldData newData : Payload) (now : Nat) (t : Tx) :
    ∃ t', recordChangesTxAux none fields eid oldData newData now t = .ok t' := by
  induction fields generalizing t with
  | nil => exact ⟨t, rfl⟩
  | cons f rest ih =>
      unfold recordChangesTxAux
      split
      · rw [txWrite_none]
        exact ih _
      · exact ih t

/-- With no fault injected the transaction always commits. -/
theorem record_incentive_tx_none (did : String) (data : Payload) (now : Nat)
    (s : Store) :
    record_incentive_tx none did data now s =
      .ok (record_incentive s did data now) := by
  rcases record_incentive_tx_cases none did data now s with h | h
  · exfalso
    unfold record_incentive_tx record_incentive_body at h
    cases hfe : findEntity s did with
    | none =>
        rw [hfe] at h
        simp only [txWrite_none] at h
        simp at h
    | some e =>
        rw [hfe] at h
        simp only [txWrite_none] at h
        by_cases hh : e.data_hash = computeHash data
        · rw [if_neg (by simp [hh])] at h
          simp at h
        · rw [if_pos hh] at h
          cases hl : latestSnapshot s e.rowId with
          | none =>
              simp only [latestSnapshot_updateEntity, hl, txWrite_none] at h
              simp at h
          | some os =>
              simp only [latestSnapshot_updateEntity, hl] at h
              obtain ⟨t', ht'⟩ := recordChangesTxAux_none_ok tracked_fields
                e.rowId os.data_json data now
                ⟨updateEntity s e.rowId
                  (fun x => { x with last_seen_at := now, is_active := true }),
                 1⟩
              rw [ht'] at h
              simp only [txWrite_none] at h
              simp at h
  · exact h

/-- C3: each `record_incentive` call is atomic over the store: whenever any
exception is raised during the call, none of its writes are observable —
the store is exactly as before — and when no exception is raised, all of
them are observable together as the full `record_incentive` result; with no
fault the call always commits. -/
theorem c3_atomicity (fault : Option Nat) (did : String) (data : Payload)
    (now : Nat) (s : Store) :
    ((record_incentive_tx fault did data now s = .error () ∧
        observableStore fault did data now s = s) ∨
      (record_incentive_tx fault did data now s =
          .ok (record_incentive s did data now) ∧
        observableStore fault did data now s =
          (record_incentive s did data now).1)) ∧
    record_incentive_tx none did data now s =
      .ok (record_incentive s did data now) := by
  refine ⟨?_, record_incentive_tx_none did data now s⟩
  rcases record_incentive_tx_cases fault did data now s with h | h
  · exact Or.inl ⟨h, by unfold observableStore; rw [h]⟩
  · exact Or.inr ⟨h, by unfold observableStore; rw [h]⟩

end TransactionModel

section ScanLoopLemmas

/-- All records a run of the loop sees: the fetched lists of the ok scopes
in order, failing scopes contributing nothing. -/
def flatFetched (fetch : String → Except String (List Payload)) :
    List String → List Payload
  | [] => []
  | st :: rest =>
      (match fetch st with
       | .ok ps => ps
       | .error _ => []) ++ flatFetched fetch rest

/-- The scope-tagged error messages collected by `scan_states`. -/
def scopeErrors (fetch : String → Except String (List Payload)) :
    List String → List String
  | [] => []
  | st :: rest =>
      (match fetch st with
       | .ok _ => []
       | .error msg => [st ++ ": " ++ msg]) ++ scopeErrors fetch rest

theorem processRunner_fst (now : Nat) (s : Store) (r : RunnerResults)
    (p : Payload) :
    (processRunner now (s, r) p).1 =
      if pid p = "" then s else (record_incentive s (pid p) p now).1 := by
  by_cases h : pid p = "" <;> simp [processRunner, h]

theorem processRunner_snd_errors (now : Nat) (s : Store) (r : RunnerResults)
    (p : Payload) : (processRunner now (s, r) p).2.errors = r.errors := by
  by_cases h : pid p = ""
  · simp [processRunner, h]
  · simp only [processRunner, h, if_neg h]
    by_cases h1 : (record_incentive s (pid p) p now).2.1 <;>
      by_cases h2 : (record_incentive s (pid p) p now).2.2 <;>
        simp [h1, h2]

theorem processRunner_snd_scan_id (now : Nat) (s : Store) (r : RunnerResults)
    (p : Payload) : (processRunner now (s, r) p).2.scan_id = r.scan_id := by
  by_cases h : pid p = ""
  · simp [processRunner, h]
  · simp only [processRunner, h, if_neg h]
    by_cases h1 : (record_incentive s (pid p) p now).2.1 <;>
      by_cases h2 : (record_incentive s (pid p) p now).2.2 <;>
        simp [h1, h2]

theorem processRunner_snd_total (now : Nat) (s : Store) (r : RunnerResults)
    (p : Payload) :
    (processRunner now (s, r) p).2.total_found =
      r.total_found + (if goodId p then 1 else 0) := by
  by_cases h : pid p = ""
  · simp [processRunner, goodId, h]
  · have hg : goodId p = true := by simp [goodId, h]
    simp only [processRunner, h, if_neg h, hg, if_true, ite_true]
    by_cases h1 : (record_incentive s (pid p) p now).2.1 <;>
      by_cases h2 : (record_incentive s (pid p) p now).2.2 <;>
        simp [h1, h2]

theorem processRunner_snd_new (now : Nat) (s : Store) (r : RunnerResults)
    (p : Payload) (q : Payload)
    (hq : q ∈ (processRunner now (s, r) p).2.new_incentives) :
    q ∈ r.new_incentives ∨ (q = p ∧ goodId p = true) := by
  by_cases h : pid p = ""
  · simp only [processRunner, h, if_pos rfl] at hq
    exact Or.inl hq
  · have hg : goodId p = true := by simp [goodId, h]
    simp only [processRunner, h, if_neg h] at hq
    by_cases h1 : (record_incentive s (pid p) p now).2.1 <;>
      by_cases h2 : (record_incentive s (pid p) p now).2.2 <;>
        simp [h1, h2] at hq <;>
        first
          | (rcases hq with hq | hq
             · exact Or.inl hq
             · exact Or.inr ⟨hq, hg⟩)
          | exact Or.inl hq

theorem processRunner_snd_updated (now : Nat) (s : Store) (r : RunnerResults)
    (p : Payload) (q : Payload)
    (hq : q ∈ (processRunner now (s, r) p).2.updated_incentives) :
    q ∈ r.updated_incentives ∨ (q = p ∧ goodId p = true) := by
  by_cases h : pid p = ""
  · simp only [processRunner, h, if_pos rfl] at hq
    exact Or.inl hq
  · have hg : goodId p = true := by simp [goodId, h]
    simp only [processRunner, h, if_neg h] at hq
    by_cases h1 : (record_incentive s (pid p) p now).2.1 <;>
      by_cases h2 : (record_incentive s (pid p) p now).2.2 <;>
        simp [h1, h2] at hq <;>
        first
          | (rcases hq with hq | hq
             · exact Or.inl hq
             · exact Or.inr ⟨hq, hg⟩)
          | exact Or.inl hq

theorem foldl_processRunner_spec (now : Nat) (ps : List Payload) :
    ∀ (s : Store) (r : RunnerResults),
      (ps.foldl (processRunner now) (s, r)).1 = recordPrograms now s ps ∧
      (ps.foldl (processRunner now) (s, r)).2.errors = r.errors ∧
      (ps.foldl (processRunner now) (s, r)).2.scan_id = r.scan_id ∧
      (ps.foldl (processRunner now) (s, r)).2.total_found =
        r.total_found + (ps.filter goodId).length ∧
      (∀ q ∈ (ps.foldl (processRunner now) (s, r)).2.new_incentives,
        q ∈ r.new_incentives ∨ (q ∈ ps ∧ goodId q = true)) ∧
      (∀ q ∈ (ps.foldl (processRunner now) (s, r)).2.updated_incentives,
        q ∈ r.updated_incentives ∨ (q ∈ ps ∧ goodId q = true)) := by
  induction ps with
  | nil =>
      intro s r
      refine ⟨rfl, rfl, rfl, by simp [recordPrograms], ?_, ?_⟩ <;>
        · intro q hq
          exact Or.inl hq
  | cons p rest ih =>
      intro s r
      rcases hpr : processRunner now (s, r) p with ⟨s₁, r₁⟩
      have hs₁ : s₁ = if pid p = "" then s else (record_incentive s (pid p) p now).1 := by
        rw [← processRunner_fst now s r p, hpr]
      have herr : r₁.errors = r.errors := by
        rw [← processRunner_snd_errors now s r p, hpr]
      have hid : r₁.scan_id = r.scan_id := by
        rw [← processRunner_snd_scan_id now s r p, hpr]
      have htot : r₁.total_found = r.total_found + (if goodId p then 1 else 0) := by
        rw [← processRunner_snd_total now s r p, hpr]
      have hnew : ∀ q ∈ r₁.new_incentives,
          q ∈ r.new_incentives ∨ (q = p ∧ goodId p = true) := by
        intro q hq
        exact processRunner_snd_new now s r p q (by rw [hpr]; exact hq)
      have hupd : ∀ q ∈ r₁.updated_incentives,
          q ∈ r.updated_incentives ∨ (q = p ∧ goodId p = true) := by
        intro q hq
        exact processRunner_snd_updated now s r p q (by rw [hpr]; exact hq)
      have hrec : recordPrograms now s (p :: rest) = recordPrograms now s₁ rest := by
        simp only [recordPrograms, List.foldl_cons]
        rw [hs₁]
      obtain ⟨ih1, ih2, ih3, ih4, ih5, ih6⟩ := ih s₁ r₁
      refine ⟨?_, ?_, ?_, ?_, ?_, ?_⟩
      · simp only [List.foldl_cons, hpr, ih1, hrec]
      · simp only [List.foldl_cons, hpr, ih2, herr]
      · simp only [List.foldl_cons, hpr, ih3, hid]
      · simp only [List.foldl_cons, hpr, ih4, htot, List.filter_cons]
        by_cases h : goodId p = true <;> simp [h] <;> omega
      · intro q hq
        simp only [List.foldl_cons, hpr] at hq
        rcases ih5 q hq with hq' | hq'
        · rcases hnew q hq' with hq'' | ⟨hq'', hg⟩
          · exact Or.inl hq''
          · exact Or.inr ⟨by rw [hq'']; exact List.mem_cons_self p rest, hq'' ▸ hg⟩
        · exact Or.inr ⟨List.mem_cons_of_mem p hq'.1, hq'.2⟩
      · intro q hq
        simp only [List.foldl_cons, hpr] at hq
        rcases ih6 q hq with hq' | hq'
        · rcases hupd q hq' with hq'' | ⟨hq'', hg⟩
          · exact Or.inl hq''
          · exact Or.inr ⟨by rw [hq'']; exact List.mem_cons_self p rest, hq'' ▸ hg⟩
        · exact Or.inr ⟨List.mem_cons_of_mem p hq'.1, hq'.2⟩

theorem recordPrograms_append (now : Nat) (s : Store) (l₁ l₂ : List Payload) :
    recordPrograms now s (l₁ ++ l₂) =
      recordPrograms now (recordPrograms now s l₁) l₂ := by
  simp [recordPrograms, List.foldl_append]

theorem scanStatesGo_scans (fetch : String → Except String (List Payload))
    (cbFault : Option Nat) (now : Nat) :
    ∀ (states : List String) (i : Nat) (s : Store) (r : RunnerResults),
      (scanStatesGo fetch cbFault now states i s r).1.scans = s.scans ∧
      (scanStatesGo fetch cbFault now states i s r).1.nextScanId = s.nextScanId := by
  intro states
  induction states with
  | nil => intro i s r; exact ⟨rfl, rfl⟩
  | cons st rest ih =>
      intro i s r
      simp only [scanStatesGo]
      by_cases hf : cbFault = some i
      · simp [hf]
      · rw [if_neg hf]
        cases hfe : fetch st with
        | error msg => exact ih (i + 1) s _
        | ok ps =>
            rcases hsr : ps.foldl (processRunner now) (s, r) with ⟨s₁, r₁⟩
            have hs₁ : s₁ = recordPrograms now s ps := by
              have := (foldl_processRunner_spec now ps s r).1
              rw [hsr] at this
              exact this
            simp only [hsr]
            obtain ⟨ih1, ih2⟩ := ih (i + 1) s₁ r₁
            rw [ih1, ih2, hs₁, recordPrograms_scans, recordPrograms_nextScanId]
            exact ⟨rfl, rfl⟩

theorem scanStatesGo_fault_hits (fetch : String → Except String (List Payload))
    (now : Nat) :
    ∀ (states : List String) (i j : Nat) (s : Store) (r : RunnerResults),
      i ≤ j → j < i + states.length →
      (scanStatesGo fetch (some j) now states i s r).2 = none := by
  intro states
  induction states with
  | nil =>
      intro i j s r h1 h2
      simp at h2
      omega
  | cons st rest ih =>
      intro i j s r h1 h2
      simp only [scanStatesGo]
      by_cases hf : j = i
      · rw [if_pos (by rw [hf])]
      · rw [if_neg (by simp [hf])]
        have h1' : i + 1 ≤ j := by omega
        have h2' : j < (i + 1) + rest.length := by
          simp only [List.length_cons] at h2
          omega
        cases hfe : fetch st with
        | error msg => exact ih (i + 1) j s _ h1' h2'
        | ok ps =>
            rcases hsr : ps.foldl (processRunner now) (s, r) with ⟨s₁, r₁⟩
            simp only [hsr]
            exact ih (i + 1) j s₁ r₁ h1' h2'

theorem scanStatesGo_none_spec (fetch : String → Except String (List Payload))
    (now : Nat) :
    ∀ (states : List String) (i : Nat) (s : Store) (r : RunnerResults),
      ∃ r', scanStatesGo fetch none now states i s r =
          (recordPrograms now s (flatFetched fetch states), some r') ∧
        r'.errors = r.errors ++ scopeErrors fetch states ∧
        r'.scan_id = r.scan_id ∧
        r'.total_found =
          r.total_found + ((flatFetched fetch states).filter goodId).length ∧
        (∀ q ∈ r'.new_incentives, q ∈ r.new_incentives ∨
          (q ∈ flatFetched fetch states ∧ goodId q = true)) ∧
        (∀ q ∈ r'.updated_incentives, q ∈ r.updated_incentives ∨
          (q ∈ flatFetched fetch states ∧ goodId q = true)) := by
  intro states
  induction states with
  | nil =>
      intro i s r
      refine ⟨r, ?_, by simp [scopeErrors], rfl,
        by simp [flatFetched], ?_, ?_⟩
      · simp [scanStatesGo, flatFetched, recordPrograms]
      · intro q hq; exact Or.inl hq
      · intro q hq; exact Or.inl hq
  | cons st rest ih =>
      intro i s r
      simp only [scanStatesGo, flatFetched, scopeErrors]
      rw [if_neg (by simp)]
      cases hfe : fetch st with
      | error msg =>
          obtain ⟨r', hgo, herr, hid, htot, hnew, hupd⟩ :=
            ih (i + 1) s { r with errors := r.errors ++ [st ++ ": " ++ msg] }
          refine ⟨r', ?_, ?_, hid, htot, hnew, hupd⟩
          · simpa using hgo
          · rw [herr]
            simp
      | ok ps =>
          rcases hsr : ps.foldl (processRunner now) (s, r) with ⟨s₁, r₁⟩
          obtain ⟨f1, f2, f3, f4, f5, f6⟩ := foldl_processRunner_spec now ps s r
          rw [hsr] at f1 f2 f3 f4 f5 f6
          obtain ⟨r', hgo, herr, hid, htot, hnew, hupd⟩ := ih (i + 1) s₁ r₁
          refine ⟨r', ?_, ?_, ?_, ?_, ?_, ?_⟩
          · have f1' : s₁ = recordPrograms now s ps := f1
            simp only [hsr, recordPrograms_append]
            rw [← f1']
            exact hgo
          · rw [herr, f2]
            simp
          · rw [hid, f3]
          · rw [htot, f4]
            simp [List.filter_append, Nat.add_assoc]
          · intro q hq
            rcases hnew q hq with hq' | hq'
            · rcases f5 q hq' with hq'' | hq''
              · exact Or.inl hq''
              · exact Or.inr ⟨List.mem_append.mpr (Or.inl hq''.1), hq''.2⟩
            · exact Or.inr ⟨List.mem_append.mpr (Or.inr hq'.1), hq'.2⟩
          · intro q hq
            rcases hupd q hq with hq' | hq'
            · rcases f6 q hq' with hq'' | hq''
              · exact Or.inl hq''
              · exact Or.inr ⟨List.mem_append.mpr (Or.inl hq''.1), hq''.2⟩
            · exact Or.inr ⟨List.mem_append.mpr (Or.inr hq'.1), hq'.2⟩

/-- The records of the named scopes, in scope order. -/
def progsOf (progs : String → List Payload) : List String → List Payload
  | [] => []
  | st :: rest => progs st ++ progsOf progs rest

theorem flatFetched_eq (fetch : String → Except String (List Payload))
    (progs : String → List Payload) (b msg : String)
    (hb : fetch b = .error msg) :
    ∀ states : List String,
      (∀ st ∈ states, st ≠ b → fetch st = .ok (progs st)) →
      flatFetched fetch states =
        progsOf progs (states.filter (fun st => !(st == b))) := by
  intro states
  induction states with
  | nil => intro _; rfl
  | cons st rest ih =>
      intro hok
      have hok' : ∀ st ∈ rest, st ≠ b → fetch st = .ok (progs st) :=
        fun x hx => hok x (List.mem_cons_of_mem st hx)
      by_cases hst : st = b
      · subst hst
        simp only [flatFetched, hb, List.filter_cons, beq_self_eq_true,
          Bool.not_true, List.nil_append]
        exact ih hok'
      · have hfst := hok st (List.mem_cons_self st rest) hst
        simp only [flatFetched, hfst, List.filter_cons,
          show (st == b) = false by simpa using hst, Bool.not_false]
        rw [ih hok']
        rfl

theorem scopeErrors_all_ok (fetch : String → Except String (List Payload)) :
    ∀ states : List String,
      (∀ st ∈ states, ∃ ps, fetch st = .ok ps) →
      scopeErrors fetch states = [] := by
  intro states
  induction states with
  | nil => intro _; rfl
  | cons st rest ih =>
      intro hok
      obtain ⟨ps, hps⟩ := hok st (List.mem_cons_self st rest)
      simp only [scopeErrors, hps, List.nil_append]
      exact ih (fun x hx => hok x (List.mem_cons_of_mem st hx))

theorem scopeErrors_single (fetch : String → Except String (List Payload))
    (b msg : String) (hb : fetch b = .error msg) :
    ∀ states : List String, states.count b = 1 →
      (∀ st ∈ states, st ≠ b → ∃ ps, fetch st = .ok ps) →
      scopeErrors fetch states = [b ++ ": " ++ msg] := by
  intro states
  induction states with
  | nil => intro h _; simp at h
  | cons st rest ih =>
      intro hcount hok
      by_cases hst : st = b
      · subst hst
        have hrest : rest.count st = 0 := by
          have := List.count_cons_self st rest
          omega
        have hnost : st ∉ rest := by
          rw [← List.count_eq_zero]
          exact hrest
        simp only [scopeErrors, hb, List.singleton_append]
        have : scopeErrors fetch rest = [] := by
          apply scopeErrors_all_ok
          intro x hx
          exact hok x (List.mem_cons_of_mem st hx)
            (fun hxb => hnost (hxb ▸ hx))
        rw [this]
      · have hcount' : rest.count b = 1 := by
          have := List.count_cons b st rest
          rw [hcount] at this
          simp [show (st == b) = false by simpa using hst] at this
          omega
        obtain ⟨ps, hps⟩ := hok st (List.mem_cons_self st rest) hst
        simp only [scopeErrors, hps, List.nil_append]
        exact ih hcount' (fun x hx => hok x (List.mem_cons_of_mem st hx))

/-- C6: when exactly one scope of the scanned list fails to fetch, the scan
still records every fetched record of the remaining scopes in order, the
result carries exactly one error entry naming the failing scope, and the
run completes — closing its scan row with status `completed`. -/
theorem c6_partial_failure_tolerance
    (fetch : String → Except String (List Payload))
    (progs : String → List Payload) (states : List String) (b msg : String)
    (s : Store) (now : Nat)
    (hb : fetch b = .error msg)
    (hcount : states.count b = 1)
    (hok : ∀ st ∈ states, st ≠ b → fetch st = .ok (progs st))
    (hscan : ∀ row ∈ s.scans, row.rowId < s.nextScanId) :
    ((scan_states fetch none states now s).2.map (fun r => r.errors) =
      some [b ++ ": " ++ msg]) ∧
    (scan_states fetch none states now s).1.incentives =
      (recordPrograms now ((startScan s "manual" now).1)
        (progsOf progs (states.filter (fun st => !(st == b))))).incentives ∧
    (scan_states fetch none states now s).1.snapshots =
      (recordPrograms now ((startScan s "manual" now).1)
        (progsOf progs (states.filter (fun st => !(st == b))))).snapshots ∧
    (scan_states fetch none states now s).1.changes =
      (recordPrograms now ((startScan s "manual" now).1)
        (progsOf progs (states.filter (fun st => !(st == b))))).changes ∧
    (scan_states fetch none states now s).1.scans.map
        (fun row => (row.rowId, row.status)) =
      s.scans.map (fun row => (row.rowId, row.status)) ++
        [(s.nextScanId, "completed")] := by
  obtain ⟨r', hgo, herr, hid, htot, hnew, hupd⟩ :=
    scanStatesGo_none_spec fetch now states 0 (startScan s "manual" now).1
      ⟨(startScan s "manual" now).2, [], [], 0, []⟩
  have hflat := flatFetched_eq fetch progs b msg hb states hok
  have herr' : r'.errors = [b ++ ": " ++ msg] := by
    rw [herr]
    simp only [List.nil_append]
    exact scopeErrors_single fetch b msg hb states hcount
      (fun st hst hne => ⟨progs st, hok st hst hne⟩)
  have hss : scan_states fetch none states now s =
      (endScan (recordPrograms now ((startScan s "manual" now).1)
          (flatFetched fetch states))
        (startScan s "manual" now).2 "completed" r'.total_found
        r'.new_incentives.length r'.updated_incentives.length 0 none now,
       some r') := by
    simp only [scan_states]
    rw [hgo]
  rw [hss]
  refine ⟨by simp [herr'], ?_, ?_, ?_, ?_⟩
  · simp [hflat]
  · simp [hflat]
  · simp [hflat]
  · simp only [endScan_scans, startScan_snd, recordPrograms_scans,
      startScan_fst_scans, List.map_append, List.map_map]
    rw [List.map_congr_left, List.map_congr_left]
    rotate_left
    · intro row hrow
      rfl
    · intro row hrow
      have hlt := hscan row hrow
      simp only [Function.comp]
      rw [if_neg (by omega)]
    simp

/-- Fetch oracle of the C6 witness: scope B raises, other scopes return one
record each. -/
def c6Fetch : String → Except String (List Payload) :=
  fun st =>
    if st = "B" then .error "boom"
    else .ok [[("id", Value.str st), ("name", Value.str ("prog " ++ st))]]

/-- Contents of the non-failing scopes in the C6 witness. -/
def c6Progs : String → List Payload :=
  fun st => [[("id", Value.str st), ("name", Value.str ("prog " ++ st))]]

theorem c6_partial_failure_tolerance_witness :
    c6Fetch "B" = .error "boom" ∧
    (["A", "B", "C"].count "B" = 1) ∧
    (((scan_states c6Fetch none ["A", "B", "C"] 5 Store.empty).2.map
        (fun r => r.errors) = some ["B: boom"]) ∧
     (scan_states c6Fetch none ["A", "B", "C"] 5 Store.empty).1.incentives =
       (recordPrograms 5 ((startScan Store.empty "manual" 5).1)
         (progsOf c6Progs (["A", "B", "C"].filter (fun st => !(st == "B"))))).incentives ∧
     (scan_states c6Fetch none ["A", "B", "C"] 5 Store.empty).1.snapshots =
       (recordPrograms 5 ((startScan Store.empty "manual" 5).1)
         (progsOf c6Progs (["A", "B", "C"].filter (fun st => !(st == "B"))))).snapshots ∧
     (scan_states c6Fetch none ["A", "B", "C"] 5 Store.empty).1.changes =
       (recordPrograms 5 ((startScan Store.empty "manual" 5).1)
         (progsOf c6Progs (["A", "B", "C"].filter (fun st => !(st == "B"))))).changes ∧
     (scan_states c6Fetch none ["A", "B", "C"] 5 Store.empty).1.scans.map
         (fun row => (row.rowId, row.status)) =
       Store.empty.scans.map (fun row => (row.rowId, row.status)) ++
         [(Store.empty.nextScanId, "completed")]) :=
  ⟨rfl, by decide,
   c6_partial_failure_tolerance c6Fetch c6Progs ["A", "B", "C"] "B" "boom"
     Store.empty 5 rfl (by decide)
     (by
       intro st hst hne
       fin_cases hst
       · rfl
       · exact absurd rfl hne
       · rfl)
     (by intro row hrow; simp [Store.empty] at hrow)⟩

section SchedLoopLemmas

/-- The scope-tagged error messages collected by `run_scan`. -/
def schedScopeErrors (fetch : String → Except String (List Payload)) :
    List String → List String
  | [] => []
  | st :: rest =>
      (match fetch st with
       | .ok _ => []
       | .error msg => ["Error scanning " ++ st ++ ": " ++ msg]) ++
        schedScopeErrors fetch rest

theorem processSched_fst (state : String) (now : Nat) (s : Store)
    (r : SchedResults) (p : Payload) :
    (processSched state now (s, r) p).1 =
      if pid p = "" then s else (record_incentive s (pid p) p now).1 := by
  by_cases h : pid p = "" <;> simp [processSched, h]

theorem processSched_snd_errors (state : String) (now : Nat) (s : Store)
    (r : SchedResults) (p : Payload) :
    (processSched state now (s, r) p).2.errors = r.errors := by
  by_cases h : pid p = ""
  · simp [processSched, h]
  · simp only [processSched, h, if_neg h]
    by_cases h1 : (record_incentive s (pid p) p now).2.1 <;>
      by_cases h2 : (record_incentive s (pid p) p now).2.2 <;>
        simp [h1, h2]

theorem processSched_snd_status (state : String) (now : Nat) (s : Store)
    (r : SchedResults) (p : Payload) :
    (processSched state now (s, r) p).2.status = r.status := by
  by_cases h : pid p = ""
  · simp [processSched, h]
  · simp only [processSched, h, if_neg h]
    by_cases h1 : (record_incentive s (pid p) p now).2.1 <;>
      by_cases h2 : (record_incentive s (pid p) p now).2.2 <;>
        simp [h1, h2]

theorem processSched_snd_total (state : String) (now : Nat) (s : Store)
    (r : SchedResults) (p : Payload) :
    (processSched state now (s, r) p).2.total_found =
      r.total_found + (if goodId p then 1 else 0) := by
  by_cases h : pid p = ""
  · simp [processSched, goodId, h]
  · have hg : goodId p = true := by simp [goodId, h]
    simp only [processSched, h, if_neg h, hg, if_true, ite_true]
    by_cases h1 : (record_incentive s (pid p) p now).2.1 <;>
      by_cases h2 : (record_incentive s (pid p) p now).2.2 <;>
        simp [h1, h2]

theorem processSched_snd_new (state : String) (now : Nat) (s : Store)
    (r : SchedResults) (p : Payload) (q : SchedEntry)
    (hq : q ∈ (processSched state now (s, r) p).2.new_incentives) :
    q ∈ r.new_incentives ∨ (q.dsire_id = pid p ∧ goodId p = true) := by
  by_cases h : pid p = ""
  · simp only [processSched, h, if_pos rfl] at hq
    exact Or.inl hq
  · have hg : goodId p = true := by simp [goodId, h]
    simp only [processSched, h, if_neg h] at hq
    by_cases h1 : (record_incentive s (pid p) p now).2.1 <;>
      by_cases h2 : (record_incentive s (pid p) p now).2.2 <;>
        simp [h1, h2] at hq <;>
        first
          | (rcases hq with hq | hq
             · exact Or.inl hq
             · exact Or.inr ⟨by rw [hq], hg⟩)
          | exact Or.inl hq

theorem processSched_snd_updated (state : String) (now : Nat) (s : Store)
    (r : SchedResults) (p : Payload) (q : SchedEntry)
    (hq : q ∈ (processSched state now (s, r) p).2.updated_incentives) :
    q ∈ r.updated_incentives ∨ (q.dsire_id = pid p ∧ goodId p = true) := by
  by_cases h : pid p = ""
  · simp only [processSched, h, if_pos rfl] at hq
    exact Or.inl hq
  · have hg : goodId p = true := by simp [goodId, h]
    simp only [processSched, h, if_neg h] at hq
    by_cases h1 : (record_incentive s (pid p) p now).2.1 <;>
      by_cases h2 : (record_incentive s (pid p) p now).2.2 <;>
        simp [h1, h2] at hq <;>
        first
          | (rcases hq with hq | hq
             · exact Or.inl hq
             · exact Or.inr ⟨by rw [hq], hg⟩)
          | exact Or.inl hq

theorem foldl_processSched_spec (state : String) (now : Nat)
    (ps : List Payload) :
    ∀ (s : Store) (r : SchedResults),
      (ps.foldl (processSched state now) (s, r)).1 = recordPrograms now s ps ∧
      (ps.foldl (processSched state now) (s, r)).2.errors = r.errors ∧
      (ps.foldl (processSched state now) (s, r)).2.status = r.status ∧
      (ps.foldl (processSched state now) (s, r)).2.total_found =
        r.total_found + (ps.filter goodId).length ∧
      (∀ q ∈ (ps.foldl (processSched state now) (s, r)).2.new_incentives,
        q ∈ r.new_incentives ∨ q.dsire_id ≠ "") ∧
      (∀ q ∈ (ps.foldl (processSched state now) (s, r)).2.updated_incentives,
        q ∈ r.updated_incentives ∨ q.dsire_id ≠ "") := by
  induction ps with
  | nil =>
      intro s r
      refine ⟨rfl, rfl, rfl, by simp [recordPrograms], ?_, ?_⟩ <;>
        · intro q hq
          exact Or.inl hq
  | cons p rest ih =>
      intro s r
      rcases hpr : processSched state now (s, r) p with ⟨s₁, r₁⟩
      have hs₁ : s₁ = if pid p = "" then s else (record_incentive s (pid p) p now).1 := by
        rw [← processSched_fst state now s r p, hpr]
      have herr : r₁.errors = r.errors := by
        rw [← processSched_snd_errors state now s r p, hpr]
      have hstat : r₁.status = r.status := by
        rw [← processSched_snd_status state now s r p, hpr]
      have htot : r₁.total_found = r.total_found + (if goodId p then 1 else 0) := by
        rw [← processSched_snd_total state now s r p, hpr]
      have hnew : ∀ q ∈ r₁.new_incentives,
          q ∈ r.new_incentives ∨ (q.dsire_id = pid p ∧ goodId p = true) := by
        intro q hq
        exact processSched_snd_new state now s r p q (by rw [hpr]; exact hq)
      have hupd : ∀ q ∈ r₁.updated_incentives,
          q ∈ r.updated_incentives ∨ (q.dsire_id = pid p ∧ goodId p = true) := by
        intro q hq
        exact processSched_snd_updated state now s r p q (by rw [hpr]; exact hq)
      have hrec : recordPrograms now s (p :: rest) = recordPrograms now s₁ rest := by
        simp only [recordPrograms, List.foldl_cons]
        rw [hs₁]
      obtain ⟨ih1, ih2, ih3, ih4, ih5, ih6⟩ := ih s₁ r₁
      refine ⟨?_, ?_, ?_, ?_, ?_, ?_⟩
      · simp only [List.foldl_cons, hpr, ih1, hrec]
      · simp only [List.foldl_cons, hpr, ih2, herr]
      · simp only [List.foldl_cons, hpr, ih3, hstat]
      · simp only [List.foldl_cons, hpr, ih4, htot, List.filter_cons]
        by_cases h : goodId p = true <;> simp [h] <;> omega
      · intro q hq
        simp only [List.foldl_cons, hpr] at hq
        rcases ih5 q hq with hq' | hq'
        · rcases hnew q hq' with hq'' | ⟨hq'', hg⟩
          · exact Or.inl hq''
          · refine Or.inr ?_
            rw [hq'']
            simpa [goodId] using hg
        · exact Or.inr hq'
      · intro q hq
        simp only [List.foldl_cons, hpr] at hq
        rcases ih6 q hq with hq' | hq'
        · rcases hupd q hq' with hq'' | ⟨hq'', hg⟩
          · exact Or.inl hq''
          · refine Or.inr ?_
            rw [hq'']
            simpa [goodId] using hg
        · exact Or.inr hq'

theorem runScanLoop_spec (fetch : String → Except String (List Payload))
    (now : Nat) :
    ∀ (states : List String) (s : Store) (r : SchedResults),
      (runScanLoop fetch now states s r).1 =
        recordPrograms now s (flatFetched fetch states) ∧
      (runScanLoop fetch now states s r).2.errors =
        r.errors ++ schedScopeErrors fetch states ∧
      (runScanLoop fetch now states s r).2.status = r.status ∧
      (runScanLoop fetch now states s r).2.total_found =
        r.total_found + ((flatFetched fetch states).filter goodId).length ∧
      (∀ q ∈ (runScanLoop fetch now states s r).2.new_incentives,
        q ∈ r.new_incentives ∨ q.dsire_id ≠ "") ∧
      (∀ q ∈ (runScanLoop fetch now states s r).2.updated_incentives,
        q ∈ r.updated_incentives ∨ q.dsire_id ≠ "") := by
  intro states
  induction states with
  | nil =>
      intro s r
      refine ⟨by simp [runScanLoop, flatFetched, recordPrograms],
        by simp [runScanLoop, schedScopeErrors], rfl,
        by simp [runScanLoop, flatFetched], ?_, ?_⟩ <;>
        · intro q hq
          exact Or.inl hq
  | cons st rest ih =>
      intro s r
      simp only [runScanLoop, flatFetched, schedScopeErrors]
      cases hfe : fetch st with
      | error msg =>
          obtain ⟨g1, g2, g3, g4, g5, g6⟩ :=
            ih s { r with errors := r.errors ++
              ["Error scanning " ++ st ++ ": " ++ msg] }
          refine ⟨by simpa using g1, ?_, g3, by simpa using g4, g5, g6⟩
          rw [g2]
          simp
      | ok ps =>
          rcases hsr : ps.foldl (processSched st now) (s, r) with ⟨s₁, r₁⟩
          obtain ⟨f1, f2, f3, f4, f5, f6⟩ := foldl_processSched_spec st now ps s r
          rw [hsr] at f1 f2 f3 f4 f5 f6
          obtain ⟨g1, g2, g3, g4, g5, g6⟩ := ih s₁ r₁
          have f1' : s₁ = recordPrograms now s ps := f1
          refine ⟨?_, ?_, ?_, ?_, ?_, ?_⟩
          · simp only [hsr, recordPrograms_append]
            rw [← f1']
            exact g1
          · simp only [hsr]
            rw [g2, f2]
            simp
          · simp only [hsr]
            rw [g3, f3]
          · simp only [hsr]
            rw [g4, f4]
            simp [List.filter_append, Nat.add_assoc]
          · intro q hq
            simp only [hsr] at hq
            rcases g5 q hq with hq' | hq'
            · rcases f5 q hq' with hq'' | hq''
              · exact Or.inl hq''
              · exact Or.inr hq''
            · exact Or.inr hq'
          · intro q hq
            simp only [hsr] at hq
            rcases g6 q hq with hq' | hq'
            · rcases f6 q hq' with hq'' | hq''
              · exact Or.inl hq''
              · exact Or.inr hq''
            · exact Or.inr hq'

theorem runScanLoop_scans (fetch : String → Except String (List Payload))
    (now : Nat) :
    ∀ (states : List String) (s : Store) (r : SchedResults),
      (runScanLoop fetch now states s r).1.scans = s.scans ∧
      (runScanLoop fetch now states s r).1.nextScanId = s.nextScanId := by
  intro states s r
  obtain ⟨h1, _⟩ := runScanLoop_spec fetch now states s r
  rw [h1, recordPrograms_scans, recordPrograms_nextScanId]
  exact ⟨rfl, rfl⟩

end SchedLoopLemmas

end ScanLoopLemmas

section C10

/-- Skipped records change nothing: recording a program list equals
recording only its records with a non-empty stringified id. -/
theorem recordPrograms_filter (now : Nat) (l : List Payload) :
    ∀ s : Store, recordPrograms now s l = recordPrograms now s (l.filter goodId) := by
  induction l with
  | nil => intro s; rfl
  | cons p rest ih =>
      intro s
      by_cases h : pid p = ""
      · have hg : goodId p = false := by simp [goodId, h]
        simp only [recordPrograms, List.foldl_cons, List.filter_cons, hg,
          if_pos h, Bool.false_eq_true, ite_false]
        exact ih s
      · have hg : goodId p = true := by simp [goodId, h]
        simp only [recordPrograms, List.foldl_cons, List.filter_cons, hg,
          if_neg h, ite_true]
        exact ih _

/-- Every payload in the runner result lists has a non-empty id and comes
from the fetched records. -/
def GoodRunnerLists (flat : List Payload) (o : Option RunnerResults) : Prop :=
  ∀ r', o = some r' →
    ∀ q ∈ r'.new_incentives ++ r'.updated_incentives,
      goodId q = true ∧ q ∈ flat

/-- Every entry in the scheduler result lists carries a non-empty id. -/
def GoodSchedLists (r : SchedResults) : Prop :=
  ∀ q ∈ r.new_incentives ++ r.updated_incentives, q.dsire_id ≠ ""

/-- C10: in both scan paths — `ScanRunner.scan_states` and the scheduler
`run_scan` — every fetched record whose id is absent or stringifies to the
empty string is silently skipped: it is never recorded, not counted in
`total_found`, and absent from the new/updated result lists, while all
records with a non-empty id are processed. -/
theorem c10_empty_id_skipped (fetch : String → Except String (List Payload))
    (states : List String) (s : Store) (now : Nat) (ty : String)
    (hok : ∀ st ∈ states, ∃ ps, fetch st = .ok ps) :
    ((scan_states fetch none states now s).2.map (fun r => r.total_found) =
      some ((flatFetched fetch states).filter goodId).length) ∧
    (scan_states fetch none states now s).1.incentives =
      (recordPrograms now ((startScan s "manual" now).1)
        ((flatFetched fetch states).filter goodId)).incentives ∧
    (scan_states fetch none states now s).1.snapshots =
      (recordPrograms now ((startScan s "manual" now).1)
        ((flatFetched fetch states).filter goodId)).snapshots ∧
    (scan_states fetch none states now s).1.changes =
      (recordPrograms now ((startScan s "manual" now).1)
        ((flatFetched fetch states).filter goodId)).changes ∧
    GoodRunnerLists (flatFetched fetch states)
      (scan_states fetch none states now s).2 ∧
    (run_scan fetch false states ty now s).2.total_found =
      ((flatFetched fetch states).filter goodId).length ∧
    (run_scan fetch false states ty now s).1.incentives =
      (recordPrograms now ((startScan s ty now).1)
        ((flatFetched fetch states).filter goodId)).incentives ∧
    (run_scan fetch false states ty now s).1.snapshots =
      (recordPrograms now ((startScan s ty now).1)
        ((flatFetched fetch states).filter goodId)).snapshots ∧
    (run_scan fetch false states ty now s).1.changes =
      (recordPrograms now ((startScan s ty now).1)
        ((flatFetched fetch states).filter goodId)).changes ∧
    GoodSchedLists (run_scan fetch false states ty now s).2 := by
  obtain ⟨r', hgo, herr, hid, htot, hnew, hupd⟩ :=
    scanStatesGo_none_spec fetch now states 0 (startScan s "manual" now).1
      ⟨(startScan s "manual" now).2, [], [], 0, []⟩
  have hss : scan_states fetch none states now s =
      (endScan (recordPrograms now ((startScan s "manual" now).1)
          (flatFetched fetch states))
        (startScan s "manual" now).2 "completed" r'.total_found
        r'.new_incentives.length r'.updated_incentives.length 0 none now,
       some r') := by
    simp only [scan_states]
    rw [hgo]
  obtain ⟨g1, g2, g3, g4, g5, g6⟩ := runScanLoop_spec fetch now states
    (startScan s ty now).1 ⟨(startScan s ty now).2, [], [], 0, [], "running"⟩
  have hrs : run_scan fetch false states ty now s =
      (endScan (runScanLoop fetch now states (startScan s ty now).1
          ⟨(startScan s ty now).2, [], [], 0, [], "running"⟩).1
        (startScan s ty now).2 "completed"
        (runScanLoop fetch now states (startScan s ty now).1
          ⟨(startScan s ty now).2, [], [], 0, [], "running"⟩).2.total_found
        (runScanLoop fetch now states (startScan s ty now).1
          ⟨(startScan s ty now).2, [], [], 0, [], "running"⟩).2.new_incentives.length
        (runScanLoop fetch now states (startScan s ty now).1
          ⟨(startScan s ty now).2, [], [], 0, [], "running"⟩).2.updated_incentives.length
        0 none now,
       { (runScanLoop fetch now states (startScan s ty now).1
          ⟨(startScan s ty now).2, [], [], 0, [], "running"⟩).2
          with status := "completed" }) := rfl
  refine ⟨?_, ?_, ?_, ?_, ?_, ?_, ?_, ?_, ?_, ?_⟩
  · rw [hss]
    show (some r').map (fun r => r.total_found) =
      some ((flatFetched fetch states).filter goodId).length
    simp [htot]
  · rw [hss]
    simp [recordPrograms_filter now (flatFetched fetch states)]
  · rw [hss]
    simp [recordPrograms_filter now (flatFetched fetch states)]
  · rw [hss]
    simp [recordPrograms_filter now (flatFetched fetch states)]
  · rw [hss]
    intro r'' hr'' q hq
    have hr : r' = r'' := by
      simpa using hr''
    subst hr
    rcases List.mem_append.mp hq with hq | hq
    · rcases hnew q hq with hq' | hq'
      · simp at hq'
      · exact ⟨hq'.2, hq'.1⟩
    · rcases hupd q hq with hq' | hq'
      · simp at hq'
      · exact ⟨hq'.2, hq'.1⟩
  · rw [hrs]
    show (runScanLoop fetch now states (startScan s ty now).1
        ⟨(startScan s ty now).2, [], [], 0, [], "running"⟩).2.total_found =
      ((flatFetched fetch states).filter goodId).length
    rw [g4]
    simp
  · rw [hrs]
    simp only [endScan_incentives]
    rw [g1, recordPrograms_filter now (flatFetched fetch states)]
  · rw [hrs]
    simp only [endScan_snapshots]
    rw [g1, recordPrograms_filter now (flatFetched fetch states)]
  · rw [hrs]
    simp only [endScan_changes]
    rw [g1, recordPrograms_filter now (flatFetched fetch states)]
  · rw [hrs]
    intro q hq
    replace hq : q ∈
        (runScanLoop fetch now states (startScan s ty now).1
          ⟨(startScan s ty now).2, [], [], 0, [], "running"⟩).2.new_incentives ++
        (runScanLoop fetch now states (startScan s ty now).1
          ⟨(startScan s ty now).2, [], [], 0, [], "running"⟩).2.updated_incentives := hq
    rcases List.mem_append.mp hq with hq | hq
    · rcases g5 q hq with hq' | hq'
      · simp at hq'
      · exact hq'
    · rcases g6 q hq with hq' | hq'
      · simp at hq'
      · exact hq'

/-- Fetch oracle of the C10 witness: one record with a good id, one with an
empty id, one with no id field at all. -/
def c10Fetch : String → Except String (List Payload) :=
  fun _ => .ok
    [[("id", Value.str "11"), ("name", Value.str "Good")],
     [("id", Value.str ""), ("name", Value.str "EmptyId")],
     [("name", Value.str "NoId")]]

theorem c10_empty_id_skipped_witness :
    (((scan_states c10Fetch none ["NY"] 4 Store.empty).2.map
        (fun r => r.total_found) =
      some ((flatFetched c10Fetch ["NY"]).filter goodId).length) ∧
     (scan_states c10Fetch none ["NY"] 4 Store.empty).1.incentives =
       (recordPrograms 4 ((startScan Store.empty "manual" 4).1)
         ((flatFetched c10Fetch ["NY"]).filter goodId)).incentives ∧
     (scan_states c10Fetch none ["NY"] 4 Store.empty).1.snapshots =
       (recordPrograms 4 ((startScan Store.empty "manual" 4).1)
         ((flatFetched c10Fetch ["NY"]).filter goodId)).snapshots ∧
     (scan_states c10Fetch none ["NY"] 4 Store.empty).1.changes =
       (recordPrograms 4 ((startScan Store.empty "manual" 4).1)
         ((flatFetched c10Fetch ["NY"]).filter goodId)).changes ∧
     GoodRunnerLists (flatFetched c10Fetch ["NY"])
       (scan_states c10Fetch none ["NY"] 4 Store.empty).2 ∧
     (run_scan c10Fetch false ["NY"] "scheduled" 4 Store.empty).2.total_found =
       ((flatFetched c10Fetch ["NY"]).filter goodId).length ∧
     (run_scan c10Fetch false ["NY"] "scheduled" 4 Store.empty).1.incentives =
       (recordPrograms 4 ((startScan Store.empty "scheduled" 4).1)
         ((flatFetched c10Fetch ["NY"]).filter goodId)).incentives ∧
     (run_scan c10Fetch false ["NY"] "scheduled" 4 Store.empty).1.snapshots =
       (recordPrograms 4 ((startScan Store.empty "scheduled" 4).1)
         ((flatFetched c10Fetch ["NY"]).filter goodId)).snapshots ∧
     (run_scan c10Fetch false ["NY"] "scheduled" 4 Store.empty).1.changes =
       (recordPrograms 4 ((startScan Store.empty "scheduled" 4).1)
         ((flatFetched c10Fetch ["NY"]).filter goodId)).changes ∧
     GoodSchedLists (run_scan c10Fetch false ["NY"] "scheduled" 4 Store.empty).2) :=
  c10_empty_id_skipped c10Fetch ["NY"] Store.empty 4 "scheduled"
    (by
      intro st hst
      exact ⟨_, rfl⟩)

end C10

section C7

/-- Closing a freshly opened scan row rewrites only that row. -/
theorem endScan_scans_pair (X s : Store) (ty status : String)
    (total nw upd rem : Nat) (err : Option String) (now now0 : Nat)
    (hX : X.scans = s.scans ++
      [⟨s.nextScanId, ty, "running", 0, 0, 0, 0, none, now0, none⟩])
    (hscan : ∀ row ∈ s.scans, row.rowId < s.nextScanId) :
    (endScan X s.nextScanId status total nw upd rem err now).scans.map
        (fun row => (row.rowId, row.status)) =
      s.scans.map (fun row => (row.rowId, row.status)) ++
        [(s.nextScanId, status)] := by
  simp only [endScan_scans, hX, List.map_append, List.map_map]
  rw [List.map_congr_left, List.map_congr_left]
  rotate_left
  · intro row hrow
    rfl
  · intro row hrow
    have hlt := hscan row hrow
    simp only [Function.comp]
    rw [if_neg (by omega)]
  simp

/-- C7 counterexample: `ScanRunner.scan_states` calls the progress callback
before the per-scope `try` and has no failure handler, so a callback that
raises escapes the function and the opened scan row stays in status
`running` — it is not closed with status `failed` even though an exception
escaped the per-scope handling. -/
theorem c7_runner_unclosed_on_escape :
    (scan_states (fun _ => Except.ok []) (some 0) ["NY"] 5 Store.empty).2 =
      none ∧
    (scan_states (fun _ => Except.ok []) (some 0) ["NY"] 5
        Store.empty).1.scans.map (fun row => row.status) = ["running"] :=
  ⟨rfl, rfl⟩

/-- C7 (amended): the scheduler `run_scan` closes its scan row exactly once
— `completed` when every per-scope error was caught, `failed` when the
orchestration itself raises — and never moves a row out of a terminal
status; `ScanRunner.scan_states` closes exactly once with `completed` when
nothing escapes, but when an exception does escape its per-scope handling
(a raising progress callback) the run is left unclosed in status
`running`, not closed as `failed`. -/
theorem c7_scan_run_closing (fetch : String → Except String (List Payload))
    (states : List String) (ty : String) (now : Nat) (s : Store)
    (orchFault : Bool) (k : Nat)
    (hscan : ∀ row ∈ s.scans, row.rowId < s.nextScanId)
    (hk : k < states.length) :
    ((run_scan fetch orchFault states ty now s).1.scans.map
        (fun row => (row.rowId, row.status)) =
      s.scans.map (fun row => (row.rowId, row.status)) ++
        [(s.nextScanId, if orchFault then "failed" else "completed")]) ∧
    (run_scan fetch orchFault states ty now s).2.status =
      (if orchFault then "failed" else "completed") ∧
    ((scan_states fetch none states now s).2.isSome = true) ∧
    ((scan_states fetch none states now s).1.scans.map
        (fun row => (row.rowId, row.status)) =
      s.scans.map (fun row => (row.rowId, row.status)) ++
        [(s.nextScanId, "completed")]) ∧
    ((scan_states fetch (some k) states now s).2 = none) ∧
    ((scan_states fetch (some k) states now s).1.scans.map
        (fun row => (row.rowId, row.status)) =
      s.scans.map (fun row => (row.rowId, row.status)) ++
        [(s.nextScanId, "running")]) := by
  have hloop := runScanLoop_scans fetch now states (startScan s ty now).1
    ⟨(startScan s ty now).2, [], [], 0, [], "running"⟩
  obtain ⟨r', hgo, herr, hid, htot, hnew, hupd⟩ :=
    scanStatesGo_none_spec fetch now states 0 (startScan s "manual" now).1
      ⟨(startScan s "manual" now).2, [], [], 0, []⟩
  have hss : scan_states fetch none states now s =
      (endScan (recordPrograms now ((startScan s "manual" now).1)
          (flatFetched fetch states))
        (startScan s "manual" now).2 "completed" r'.total_found
        r'.new_incentives.length r'.updated_incentives.length 0 none now,
       some r') := by
    simp only [scan_states]
    rw [hgo]
  refine ⟨?_, ?_, ?_, ?_, ?_, ?_⟩
  · cases orchFault with
    | false =>
        show (endScan (runScanLoop fetch now states (startScan s ty now).1
            ⟨(startScan s ty now).2, [], [], 0, [], "running"⟩).1
            (startScan s ty now).2 "completed" _ _ _ 0 none now).scans.map _ = _
        apply endScan_scans_pair
        · rw [hloop.1]
          rfl
        · exact hscan
    | true =>
        show (endScan (runScanLoop fetch now states (startScan s ty now).1
            ⟨(startScan s ty now).2, [], [], 0, [], "running"⟩).1
            (startScan s ty now).2 "failed" 0 0 0 0
            (some "orchestration error") now).scans.map _ = _
        apply endScan_scans_pair
        · rw [hloop.1]
          rfl
        · exact hscan
  · cases orchFault with
    | false => rfl
    | true => rfl
  · rw [hss]
    rfl
  · rw [hss]
    show (endScan (recordPrograms now ((startScan s "manual" now).1)
        (flatFetched fetch states)) (startScan s "manual" now).2 "completed"
        _ _ _ 0 none now).scans.map _ = _
    apply endScan_scans_pair
    · rw [recordPrograms_scans]
      rfl
    · exact hscan
  · rcases hgo2 : scanStatesGo fetch (some k) now states 0
        (startScan s "manual" now).1
        ⟨(startScan s "manual" now).2, [], [], 0, []⟩ with ⟨s', o⟩
    have ho : o = none := by
      have := scanStatesGo_fault_hits fetch now states 0 k
        (startScan s "manual" now).1
        ⟨(startScan s "manual" now).2, [], [], 0, []⟩ (Nat.zero_le k)
        (by simpa using hk)
      rw [hgo2] at this
      exact this
    subst ho
    simp only [scan_states]
    rw [hgo2]
  · rcases hgo2 : scanStatesGo fetch (some k) now states 0
        (startScan s "manual" now).1
        ⟨(startScan s "manual" now).2, [], [], 0, []⟩ with ⟨s', o⟩
    have ho : o = none := by
      have := scanStatesGo_fault_hits fetch now states 0 k
        (startScan s "manual" now).1
        ⟨(startScan s "manual" now).2, [], [], 0, []⟩ (Nat.zero_le k)
        (by simpa using hk)
      rw [hgo2] at this
      exact this
    subst ho
    have hs' : s'.scans = (startScan s "manual" now).1.scans := by
      have := (scanStatesGo_scans fetch (some k) now states 0
        (startScan s "manual" now).1
        ⟨(startScan s "manual" now).2, [], [], 0, []⟩).1
      rw [hgo2] at this
      exact this
    simp only [scan_states]
    rw [hgo2]
    show s'.scans.map _ = _
    rw [hs', startScan_fst_scans]
    simp

theorem c7_scan_run_closing_witness :
    (0 < (["NY"] : List String).length) ∧
    (((run_scan (fun _ => Except.ok []) true ["NY"] "scheduled" 5
          Store.empty).1.scans.map (fun row => (row.rowId, row.status)) =
        Store.empty.scans.map (fun row => (row.rowId, row.status)) ++
          [(Store.empty.nextScanId, if true then "failed" else "completed")]) ∧
      (run_scan (fun _ => Except.ok []) true ["NY"] "scheduled" 5
          Store.empty).2.status = (if true then "failed" else "completed") ∧
      ((scan_states (fun _ => Except.ok []) none ["NY"] 5 Store.empty).2.isSome =
        true) ∧
      ((scan_states (fun _ => Except.ok []) none ["NY"] 5
          Store.empty).1.scans.map (fun row => (row.rowId, row.status)) =
        Store.empty.scans.map (fun row => (row.rowId, row.status)) ++
          [(Store.empty.nextScanId, "completed")]) ∧
      ((scan_states (fun _ => Except.ok []) (some 0) ["NY"] 5 Store.empty).2 =
        none) ∧
      ((scan_states (fun _ => Except.ok []) (some 0) ["NY"] 5
          Store.empty).1.scans.map (fun row => (row.rowId, row.status)) =
        Store.empty.scans.map (fun row => (row.rowId, row.status)) ++
          [(Store.empty.nextScanId, "running")])) :=
  ⟨by decide,
   c7_scan_run_closing (fun _ => Except.ok []) ["NY"] "scheduled" 5
     Store.empty true 0
     (by intro row hrow; simp [Store.empty] at hrow) (by decide)⟩

end C7

section C4

/-- At most one entity row per external id. -/
def EntityUnique (s : Store) : Prop :=
  s.incentives.Pairwise (fun a b => a.dsire_id ≠ b.dsire_id)

/-- Each entity hash equals the hash of its most recent snapshot. -/
def HashMatchesLatest (s : Store) : Prop :=
  ∀ e ∈ s.incentives, ∃ sn, latestSnapshot s e.rowId = some sn ∧
    sn.data_hash = e.data_hash

/-- Every entity row survives into the successor store with the same
surrogate key, external id and `first_seen_at`. -/
def FirstSeenStable (s s' : Store) : Prop :=
  ∀ e ∈ s.incentives, ∃ e', e' ∈ s'.incentives ∧
    e'.rowId = e.rowId ∧ e'.dsire_id = e.dsire_id ∧
    e'.first_seen_at = e.first_seen_at

/-- No tracker operation ever modifies a stored `first_seen_at`. -/
def FirstSeenNeverChanges (s : Store) : Prop :=
  (∀ did data now, FirstSeenStable s (record_incentive s did data now).1) ∧
  (∀ ids, FirstSeenStable s (markInactive s ids))

/-- The wall clock has advanced past every stored capture time. -/
def FreshTime (s : Store) (now : Nat) : Prop :=
  ∀ sn ∈ s.snapshots, sn.scraped_at < now

instance (s : Store) (now : Nat) : Decidable (FreshTime s now) :=
  inferInstanceAs (Decidable (∀ sn ∈ s.snapshots, sn.scraped_at < now))

/-- Store states reachable from the freshly initialized database through
tracker write operations under an advancing clock. -/
inductive Reachable : Store → Prop where
  | empty : Reachable Store.empty
  | record (s : Store) (did : String) (data : Payload) (now : Nat) :
      Reachable s → FreshTime s now →
      Reachable (record_incentive s did data now).1
  | inactive (s : Store) (ids : List String) :
      Reachable s → Reachable (markInactive s ids)

/-- Induction invariant: the claimed invariants plus the bookkeeping facts
(fresh surrogate keys) needed to push them through each step. -/
structure StoreInv (s : Store) : Prop where
  uniq : EntityUnique s
  idPair : s.incentives.Pairwise (fun a b => a.rowId ≠ b.rowId)
  idLt : ∀ e ∈ s.incentives, e.rowId < s.nextEntityId
  snapLt : ∀ sn ∈ s.snapshots, sn.incentive_id < s.nextEntityId
  hashLatest : HashMatchesLatest s

theorem pairwise_ne_inj {α β : Type} (P : α → β) {l : List α}
    (hp : l.Pairwise (fun x y => P x ≠ P y)) :
    ∀ a ∈ l, ∀ b ∈ l, P a = P b → a = b := by
  induction l with
  | nil => intro a ha; simp at ha
  | cons x xs ih =>
      intro a ha b hb hPab
      rcases List.mem_cons.mp ha with ha' | ha' <;>
        rcases List.mem_cons.mp hb with hb' | hb'
      · rw [ha', hb']
      · subst ha'
        exact absurd hPab ((List.pairwise_cons.mp hp).1 b hb')
      · subst hb'
        exact absurd hPab.symm ((List.pairwise_cons.mp hp).1 a ha')
      · exact ih (List.pairwise_cons.mp hp).2 a ha' b hb' hPab

@[simp] theorem latestSnapshot_set_incentives (s : Store) (l : List Entity)
    (eid : Nat) :
    latestSnapshot { s with incentives := l } eid = latestSnapshot s eid := rfl

/-- An entity-map that preserves surrogate key, external id and hash
preserves the whole invariant. -/
theorem storeInv_map_entities (s : Store) (g : Entity → Entity)
    (hid : ∀ e, (g e).rowId = e.rowId)
    (hdid : ∀ e, (g e).dsire_id = e.dsire_id)
    (hhash : ∀ e, (g e).data_hash = e.data_hash)
    (hinv : StoreInv s) :
    StoreInv { s with incentives := s.incentives.map g } := by
  refine ⟨?_, ?_, ?_, ?_, ?_⟩
  · unfold EntityUnique
    simp only []
    rw [List.pairwise_map]
    exact hinv.uniq.imp (by
      intro a b hab
      rw [hdid a, hdid b]
      exact hab)
  · simp only []
    rw [List.pairwise_map]
    exact hinv.idPair.imp (by
      intro a b hab
      rw [hid a, hid b]
      exact hab)
  · intro e he
    simp only [] at he
    obtain ⟨a, ha, rfl⟩ := List.mem_map.mp he
    rw [hid a]
    exact hinv.idLt a ha
  · exact hinv.snapLt
  · intro e he
    simp only [] at he
    obtain ⟨a, ha, rfl⟩ := List.mem_map.mp he
    obtain ⟨sn, hsn, hh⟩ := hinv.hashLatest a ha
    exact ⟨sn, by rw [latestSnapshot_set_incentives, hid a]; exact hsn,
      by rw [hhash a]; exact hh⟩

theorem firstSeenStable_map (s : Store) (g : Entity → Entity)
    (hid : ∀ e, (g e).rowId = e.rowId)
    (hdid : ∀ e, (g e).dsire_id = e.dsire_id)
    (hfs : ∀ e, (g e).first_seen_at = e.first_seen_at) :
    FirstSeenStable s { s with incentives := s.incentives.map g } := by
  intro e he
  exact ⟨g e, List.mem_map.mpr ⟨e, he, rfl⟩, hid e, hdid e, hfs e⟩

theorem firstSeenStable_markInactive (s : Store) (ids : List String) :
    FirstSeenStable s (markInactive s ids) := by
  unfold markInactive
  split
  · intro e he
    exact ⟨e, he, rfl, rfl, rfl⟩
  · apply firstSeenStable_map <;>
      · intro e
        by_cases h : e.dsire_id ∈ ids <;> simp [h]

theorem firstSeenStable_record (s : Store) (did : String) (data : Payload)
    (now : Nat) : FirstSeenStable s (record_incentive s did data now).1 := by
  cases hfe : findEntity s did with
  | none =>
      rw [record_new s did data now hfe]
      intro e he
      refine ⟨e, ?_, rfl, rfl, rfl⟩
      simp only [insertSnapshot_incentives, insertEntityRow_incentives]
      exact List.mem_append.mpr (Or.inl he)
  | some e0 =>
      by_cases hh : e0.data_hash = computeHash data
      · rw [record_unchanged s did data now e0 hfe hh]
        have : (updateEntity s e0.rowId
            (fun x => { x with last_seen_at := now, is_active := true })) =
            { s with incentives := s.incentives.map (fun x =>
              if x.rowId = e0.rowId then
                { x with last_seen_at := now, is_active := true } else x) } := rfl
        rw [this]
        apply firstSeenStable_map <;>
          · intro e
            by_cases h : e.rowId = e0.rowId <;> simp [h]
      · intro e he
        rw [record_updated_incentives s did data now e0 hfe hh]
        refine ⟨_, List.mem_map.mpr ⟨e, he, rfl⟩, ?_, ?_, ?_⟩ <;>
          · by_cases h : e.rowId = e0.rowId <;> simp [h]

theorem storeInv_markInactive (s : Store) (ids : List String)
    (hinv : StoreInv s) : StoreInv (markInactive s ids) := by
  unfold markInactive
  split
  · exact hinv
  · apply storeInv_map_entities <;>
      first
        | (intro e
           by_cases h : e.dsire_id ∈ ids <;> simp [h])
        | exact hinv

/-- The latest-snapshot query as a function of the snapshot table alone. -/
def latestIn (l : List Snapshot) (eid : Nat) : Option Snapshot :=
  (l.filter (fun sn => sn.incentive_id == eid)).foldl snapMax none

theorem latestSnapshot_eq_latestIn (s : Store) (eid : Nat) :
    latestSnapshot s eid = latestIn s.snapshots eid := rfl

theorem latestIn_append_other (l : List Snapshot) (x : Snapshot) (eid : Nat)
    (h : x.incentive_id ≠ eid) : latestIn (l ++ [x]) eid = latestIn l eid := by
  unfold latestIn
  rw [List.filter_append]
  have : List.filter (fun sn => sn.incentive_id == eid) [x] = [] := by simp [h]
  rw [this, List.append_nil]

theorem latestIn_append_self (l : List Snapshot) (x : Snapshot) (eid : Nat)
    (hx : x.incentive_id = eid)
    (hlt : ∀ y ∈ l, y.incentive_id = eid → y.scraped_at < x.scraped_at) :
    latestIn (l ++ [x]) eid = some x := by
  unfold latestIn
  rw [List.filter_append]
  have hfx : List.filter (fun sn => sn.incentive_id == eid) [x] = [x] := by
    simp [hx]
  rw [hfx]
  apply foldl_snapMax_append_last
  intro y hy
  have := List.mem_filter.mp hy
  exact hlt y this.1 (by simpa using this.2)

theorem record_updated_nextEntityId (s : Store) (did : String) (data : Payload)
    (now : Nat) (e : Entity) (h : findEntity s did = some e)
    (hne : e.data_hash ≠ computeHash data) :
    (record_incentive s did data now).1.nextEntityId = s.nextEntityId := by
  rw [record_updated_eq s did data now e h hne]
  cases hl : latestSnapshot s e.rowId <;>
    simp [recordChangesAux_nextEntityId, recordChanges, insertSnapshot,
      updateEntity]

theorem storeInv_record_new (s : Store) (did : String) (data : Payload)
    (now : Nat) (hfe : findEntity s did = none) (hinv : StoreInv s) :
    StoreInv (record_incentive s did data now).1 := by
  rw [record_new s did data now hfe]
  have hnomem : ∀ e ∈ s.incentives, e.dsire_id ≠ did :=
    (findEntity_none_iff s did).mp hfe
  refine ⟨?_, ?_, ?_, ?_, ?_⟩
  · unfold EntityUnique
    simp only [insertSnapshot_incentives, insertEntityRow_incentives]
    rw [List.pairwise_append]
    refine ⟨hinv.uniq, List.pairwise_singleton _ _, ?_⟩
    intro a ha b hb
    simp only [List.mem_singleton] at hb
    subst hb
    simpa using hnomem a ha
  · simp only [insertSnapshot_incentives, insertEntityRow_incentives]
    rw [List.pairwise_append]
    refine ⟨hinv.idPair, List.pairwise_singleton _ _, ?_⟩
    intro a ha b hb
    simp only [List.mem_singleton] at hb
    subst hb
    have := hinv.idLt a ha
    simp only []
    omega
  · intro e he
    simp only [insertSnapshot_incentives, insertEntityRow_incentives] at he
    simp only [insertSnapshot_nextEntityId, insertEntityRow_nextEntityId]
    rcases List.mem_append.mp he with he | he
    · have := hinv.idLt e he
      omega
    · simp only [List.mem_singleton] at he
      subst he
      simp only []
      omega
  · intro sn hsn
    simp only [insertSnapshot_snapshots, insertEntityRow_snapshots] at hsn
    simp only [insertSnapshot_nextEntityId, insertEntityRow_nextEntityId]
    rcases List.mem_append.mp hsn with hsn | hsn
    · have := hinv.snapLt sn hsn
      omega
    · simp only [List.mem_singleton] at hsn
      subst hsn
      simp only []
      omega
  · intro e he
    simp only [insertSnapshot_incentives, insertEntityRow_incentives] at he
    rcases List.mem_append.mp he with he | he
    · obtain ⟨sn, hsn, hh⟩ := hinv.hashLatest e he
      refine ⟨sn, ?_, hh⟩
      rw [latestSnapshot_eq_latestIn]
      simp only [insertSnapshot_snapshots, insertEntityRow_snapshots,
        insertEntityRow_nextSnapshotId]
      rw [latestIn_append_other]
      · rw [← latestSnapshot_eq_latestIn]
        exact hsn
      · have := hinv.idLt e he
        simp only []
        omega
    · simp only [List.mem_singleton] at he
      subst he
      refine ⟨⟨s.nextSnapshotId, s.nextEntityId, data, computeHash data, now⟩,
        ?_, rfl⟩
      rw [latestSnapshot_eq_latestIn]
      simp only [insertSnapshot_snapshots, insertEntityRow_snapshots,
        insertEntityRow_nextSnapshotId]
      apply latestIn_append_self
      · rfl
      · intro y hy hyid
        exact absurd hyid (by have := hinv.snapLt y hy; omega)

theorem storeInv_record_unchanged (s : Store) (did : String) (data : Payload)
    (now : Nat) (e0 : Entity) (hfe : findEntity s did = some e0)
    (hh : e0.data_hash = computeHash data) (hinv : StoreInv s) :
    StoreInv (record_incentive s did data now).1 := by
  rw [record_unchanged s did data now e0 hfe hh]
  have heq : updateEntity s e0.rowId
      (fun x => { x with last_seen_at := now, is_active := true }) =
      { s with incentives := s.incentives.map (fun x =>
        if x.rowId = e0.rowId then
          { x with last_seen_at := now, is_active := true } else x) } := rfl
  rw [heq]
  apply storeInv_map_entities <;>
    first
      | (intro e
         by_cases h : e.rowId = e0.rowId <;> simp [h])
      | exact hinv

theorem storeInv_record_updated (s : Store) (did : String) (data : Payload)
    (now : Nat) (e0 : Entity) (hfe : findEntity s did = some e0)
    (hh : e0.data_hash ≠ computeHash data) (hfresh : FreshTime s now)
    (hinv : StoreInv s) :
    StoreInv (record_incentive s did data now).1 := by
  obtain ⟨he0mem, he0did⟩ := findEntity_mem s did e0 hfe
  have hincs := record_updated_incentives s did data now e0 hfe hh
  have hsnaps := record_updated_snapshots s did data now e0 hfe hh
  have hnext := record_updated_nextEntityId s did data now e0 hfe hh
  refine ⟨?_, ?_, ?_, ?_, ?_⟩
  · unfold EntityUnique
    rw [hincs, List.pairwise_map]
    exact hinv.uniq.imp (by
      intro a b hab
      by_cases ha : a.rowId = e0.rowId <;> by_cases hb : b.rowId = e0.rowId <;>
        simpa [ha, hb] using hab)
  · rw [hincs, List.pairwise_map]
    exact hinv.idPair.imp (by
      intro a b hab
      by_cases ha : a.rowId = e0.rowId <;> by_cases hb : b.rowId = e0.rowId <;>
        simpa [ha, hb] using hab)
  · intro e he
    rw [hincs] at he
    rw [hnext]
    obtain ⟨a, ha, rfl⟩ := List.mem_map.mp he
    have := hinv.idLt a ha
    by_cases h : a.rowId = e0.rowId <;> simp [h] <;> omega
  · intro sn hsn
    rw [hsnaps] at hsn
    rw [hnext]
    rcases List.mem_append.mp hsn with hsn | hsn
    · exact hinv.snapLt sn hsn
    · simp only [List.mem_singleton] at hsn
      subst hsn
      simpa using hinv.idLt e0 he0mem
  · intro e he
    rw [hincs] at he
    obtain ⟨a, ha, rfl⟩ := List.mem_map.mp he
    by_cases h : a.rowId = e0.rowId
    · rw [if_pos h]
      refine ⟨⟨s.nextSnapshotId, e0.rowId, data, computeHash data, now⟩, ?_, rfl⟩
      rw [latestSnapshot_eq_latestIn, hsnaps]
      apply latestIn_append_self
      · exact h.symm
      · intro y hy _
        exact hfresh y hy
    · rw [if_neg h]
      obtain ⟨sn, hsn, hhsn⟩ := hinv.hashLatest a ha
      refine ⟨sn, ?_, hhsn⟩
      rw [latestSnapshot_eq_latestIn, hsnaps, latestIn_append_other]
      · rw [← latestSnapshot_eq_latestIn]
        exact hsn
      · simpa using fun hcontra => h hcontra.symm

theorem storeInv_reachable (s : Store) (h : Reachable s) : StoreInv s := by
  induction h with
  | empty =>
      refine ⟨List.Pairwise.nil, List.Pairwise.nil, ?_, ?_, ?_⟩ <;>
        · intro x hx
          simp [Store.empty] at hx
  | record s did data now hr hfresh ih =>
      cases hfe : findEntity s did with
      | none => exact storeInv_record_new s did data now hfe ih
      | some e0 =>
          by_cases hh : e0.data_hash = computeHash data
          · exact storeInv_record_unchanged s did data now e0 hfe hh ih
          · exact storeInv_record_updated s did data now e0 hfe hh hfresh ih
  | inactive s ids hr ih => exact storeInv_markInactive s ids ih

/-- C4: in every reachable tracker state, each external id has at most one
entity row, each entity hash matches the hash of its most recent snapshot,
and no operation (observation or deactivation) ever changes a stored
`first_seen_at`. -/
theorem c4_tracker_invariants (s : Store) (h : Reachable s) :
    EntityUnique s ∧ HashMatchesLatest s ∧ FirstSeenNeverChanges s := by
  have hinv := storeInv_reachable s h
  exact ⟨hinv.uniq, hinv.hashLatest,
    ⟨fun did data now => firstSeenStable_record s did data now,
     fun ids => firstSeenStable_markInactive s ids⟩⟩

/-- A concrete reachable store: one entity recorded, then updated, then
marked inactive. -/
def c4Store : Store :=
  markInactive
    (record_incentive
      (record_incentive Store.empty "P9" examplePayloadA 1).1
      "P9" examplePayloadB 2).1 ["P9"]

theorem c4_tracker_invariants_witness :
    EntityUnique c4Store ∧ HashMatchesLatest c4Store ∧
      FirstSeenNeverChanges c4Store :=
  c4_tracker_invariants c4Store
    (Reachable.inactive _ ["P9"]
      (Reachable.record _ "P9" examplePayloadB 2
        (Reachable.record _ "P9" examplePayloadA 1 Reachable.empty
          (by intro sn hsn; simp [Store.empty] at hsn))
        (by decide)))

end C4

end IncentEdge
